import Mathlib

/-
Formal verification of the crawl-and-extraction engine of the
Algorithmic_Marketing_Final_Project repository, which consists of two
scrapers: src/scrape_ulta.py and src/scrape_sephora.py.

The Python sources are shallowly embedded.  Pure string manipulation
(norm_url, extract_product_id, the regex searches) is translated directly
into Lean functions on String / List Char.  Browser rendering, HTML
parsing via BeautifulSoup, JSON decoding and HTTP requests are external
capabilities, so a rendered page or a review-API server is modelled as
the family of values those external calls return (one oracle field per
call site), and the control flow of the Python functions over those
values is translated statement by statement.  Python sets are modelled as
duplicate-free lists maintained by the same membership checks the source
performs; Python integers are unbounded, hence Nat / Int.
-/

namespace Py

/-- Whitespace characters stripped by Python's str.strip() (ASCII range;
exotic Unicode whitespace does not occur in the modelled URL data). -/
def pyIsSpace (c : Char) : Bool :=
  c = ' ' || c = '\t' || c = '\n' || c = '\r' || c = '\x0b' || c = '\x0c'

/-- Python s.lstrip() on a character list. -/
def lstripL (l : List Char) : List Char := l.dropWhile pyIsSpace

/-- Python s.rstrip() on a character list. -/
def rstripL (l : List Char) : List Char := (l.reverse.dropWhile pyIsSpace).reverse

/-- Python s.strip() on a character list. -/
def stripL (l : List Char) : List Char := rstripL (lstripL l)

/-- Python s.strip() on strings. -/
def pyStrip (s : String) : String := String.mk (stripL s.toList)

/-- Python s.split(sep)[0] for a one-character separator: the characters
before the first occurrence of sep (the whole string if sep is absent). -/
def splitFirstL (sep : Char) (l : List Char) : List Char :=
  l.takeWhile (fun c => c ≠ sep)

/-- Translation of norm_url, which is identical in scrape_ulta.py (lines
61 to 67) and scrape_sephora.py (lines 59 to 65) up to the BASE constant:

    def norm_url(u: str) -> str:
        if not u:
            return u
        u = u.split("?")[0].strip()
        if u.startswith("/"):
            u = BASE + u
        return u
-/
def normUrl (base : String) (u : String) : String :=
  if u = "" then u
  else
    let v := stripL (splitFirstL '?' u.toList)
    if v.head? = some '/' then base ++ String.mk v else String.mk v

end Py

namespace Ulta

/-- BASE constant of scrape_ulta.py. -/
def BASE : String := "https://www.ulta.com"

/-- norm_url of scrape_ulta.py. -/
def norm_url (u : String) : String := Py.normUrl BASE u

end Ulta

namespace Sephora

/-- BASE constant of scrape_sephora.py. -/
def BASE : String := "https://www.sephora.com"

/-- norm_url of scrape_sephora.py. -/
def norm_url (u : String) : String := Py.normUrl BASE u

end Sephora


namespace Py

/-- Tests whether a character list starts with a digit (used for the
mandatory first repetition of a regex digit class). -/
def headIsDigit : List Char → Bool
  | c :: _ => c.isDigit
  | [] => false

/-- Python substring membership test: needle in hay. -/
def containsSub (needle : List Char) : List Char → Bool
  | [] => needle.isEmpty
  | c :: rest => ((c :: rest).take needle.length == needle) || containsSub needle rest

/-- Python s.lower() (ASCII case folding, as in the URL data). -/
def pyLower (s : String) : String := String.mk (s.toList.map Char.toLower)

end Py

namespace Ulta

/-- Leftmost match of the regex (pimprod\d+) over a character list, as
computed by re.search: the earliest position where the literal pimprod is
followed by at least one digit, with a greedy digit run. -/
def findPimprod : List Char → Option String
  | [] => none
  | c :: rest =>
    if (c :: rest).take 7 == "pimprod".toList && Py.headIsDigit ((c :: rest).drop 7) then
      some (String.mk ("pimprod".toList ++ ((c :: rest).drop 7).takeWhile Char.isDigit))
    else findPimprod rest

/-- Translation of extract_product_id (scrape_ulta.py lines 69 to 72):
re.search of (pimprod\d+), returning the whole match or None. -/
def extract_product_id (url : String) : Option String := findPimprod url.toList

end Ulta

namespace Sephora

/-- Leftmost match of the regex P(\d+): the earliest P followed by at least
one digit; returns group 1, the greedy digit run. -/
def findPDigits : List Char → Option String
  | [] => none
  | c :: rest =>
    if c == 'P' && Py.headIsDigit rest then
      some (String.mk (rest.takeWhile Char.isDigit))
    else findPDigits rest

/-- Translation of extract_product_id (scrape_sephora.py lines 67 to 69):
re.search of P(\d+), returning group 1 (the digits) or None. -/
def extract_product_id (url : String) : Option String := findPDigits url.toList

/-- Scan of one line (regex . does not cross a newline) for P followed by a
digit. -/
def pdigitInLine : List Char → Bool
  | [] => false
  | c :: rest =>
    if c == '\n' then false
    else if c == 'P' && Py.headIsDigit rest then true
    else pdigitInLine rest

/-- Boolean value of re.search(r"/product/.*P\d+", s): some occurrence of
the literal /product/ is followed, on the same line, by P and a digit. -/
def containsProductThenP : List Char → Bool
  | [] => false
  | c :: rest =>
    ((c :: rest).take 9 == "/product/".toList && pdigitInLine ((c :: rest).drop 9)) ||
      containsProductThenP rest

end Sephora

namespace Py

/-- Accumulators of the scroll-and-collect loop shared by both scrapers:
the ordered collected links, the seen set, and the stagnation-detection
counters last_count and stagnant_rounds. -/
structure ScrollState where
  productUrls : List String
  seen : List String
  lastCount : Nat
  stagnantRounds : Nat
  deriving Repr, DecidableEq

/-- Result of the scroll loop: the for-loop ran out of max_scrolls rounds,
the limit was reached mid-round (early return), or the stagnation break
fired. -/
inductive ScrollOutcome where
  | ranOut (st : ScrollState)
  | limitHit (urls : List String)
  | stagnated (st : ScrollState)
  deriving Repr, DecidableEq

/-- Links returned by the Python function in each outcome. -/
def ScrollOutcome.links : ScrollOutcome → List String
  | .ranOut st => st.productUrls
  | .limitHit urls => urls
  | .stagnated st => st.productUrls

/-- Translation of the per-round anchor scan of
scroll_and_collect_product_links: each anchor href is filtered and
normalized by the variant-specific accept function; a fresh link is
appended to both the collected list and the seen set, and the function
returns early as soon as the collected count reaches the limit. -/
def collectAnchors (accept : String → Option String) (limit : Nat) :
    List String → List String → List String →
    (List String × List String) ⊕ List String
  | [], urls, seen => Sum.inl (urls, seen)
  | href :: rest, urls, seen =>
    match accept href with
    | none => collectAnchors accept limit rest urls seen
    | some full =>
      if full ∈ seen then collectAnchors accept limit rest urls seen
      else if limit ≤ (urls ++ [full]).length then Sum.inr (urls ++ [full])
      else collectAnchors accept limit rest (urls ++ [full]) (seen ++ [full])

/-- Translation of the scroll loop of scroll_and_collect_product_links
(scrape_ulta.py lines 178 to 223, scrape_sephora.py lines 225 to 280):
parse the current page, collect fresh links (early return on limit),
scroll, then update the stagnation counters and break once
stagnant_rounds reaches 3.  round is the number of rounds already
executed; pages is the rendered DOM contents, where pages (round+1) is
the anchor list the round parses.  Returns the outcome and the total
number of executed rounds. -/
def scrollLoop (accept : String → Option String) (pages : Nat → List String)
    (limit : Nat) : Nat → Nat → ScrollState → ScrollOutcome × Nat
  | 0, round, st => (.ranOut st, round)
  | fuel + 1, round, st =>
    match collectAnchors accept limit (pages (round + 1)) st.productUrls st.seen with
    | Sum.inr urls => (.limitHit urls, round + 1)
    | Sum.inl (urls, seen) =>
      if urls.length = st.lastCount then
        let st' : ScrollState :=
          { productUrls := urls, seen := seen, lastCount := st.lastCount,
            stagnantRounds := st.stagnantRounds + 1 }
        if 3 ≤ st'.stagnantRounds then (.stagnated st', round + 1)
        else scrollLoop accept pages limit fuel (round + 1) st'
      else
        scrollLoop accept pages limit fuel (round + 1)
          { productUrls := urls, seen := seen, lastCount := urls.length,
            stagnantRounds := 0 }

end Py

namespace Ulta

/-- Per-anchor filter of scroll_and_collect_product_links in
scrape_ulta.py (lines 193 to 207): the CSS selector a[href*='/p/'], the
href truthiness check, norm_url, and the mandatory pimprod id. -/
def acceptProductLink (href : String) : Option String :=
  if ¬ Py.containsSub "/p/".toList href.toList then none
  else if href = "" then none
  else
    let full := norm_url href
    if full = "" then none
    else if (findPimprod full.toList).isNone then none
    else some full

/-- scroll_and_collect_product_links of scrape_ulta.py: the scroll loop
instantiated with the Ulta anchor filter, starting from empty
accumulators. -/
def scroll_and_collect_product_links (pages : Nat → List String)
    (limit maxScrolls : Nat) : Py.ScrollOutcome × Nat :=
  Py.scrollLoop acceptProductLink pages limit maxScrolls 0
    ⟨[], [], 0, 0⟩

end Ulta

namespace Sephora

/-- Per-anchor filter of scroll_and_collect_product_links in
scrape_sephora.py (lines 248 to 263): the CSS selector
a[href*='/product/'], the href truthiness check, norm_url, the regex
/product/.*P\d+, and the subscription denylist. -/
def acceptProductLink (href : String) : Option String :=
  if ¬ Py.containsSub "/product/".toList href.toList then none
  else if href = "" then none
  else
    let full := norm_url href
    if full = "" then none
    else if ¬ containsProductThenP full.toList then none
    else if Py.containsSub "subscription".toList (Py.pyLower full).toList then none
    else some full

/-- scroll_and_collect_product_links of scrape_sephora.py: the scroll loop
instantiated with the Sephora anchor filter. -/
def scroll_and_collect_product_links (pages : Nat → List String)
    (limit maxScrolls : Nat) : Py.ScrollOutcome × Nat :=
  Py.scrollLoop acceptProductLink pages limit maxScrolls 0
    ⟨[], [], 0, 0⟩

end Sephora


/-- Simulated listing source for the stagnation scenario: rounds 1 to 3
reveal one further Ulta-style and one further Sephora-style product link
each, and every round from 4 on shows the same content as round 3. -/
def c3Pages : Nat → List String
  | 1 => ["/p/a-pimprod1", "/product/a-P1"]
  | 2 => ["/p/a-pimprod1", "/product/a-P1", "/p/b-pimprod2", "/product/b-P2"]
  | _ => ["/p/a-pimprod1", "/product/a-P1", "/p/b-pimprod2", "/product/b-P2",
          "/p/c-pimprod3", "/product/c-P3"]

/-- State of the Ulta scroll loop after round 3 on c3Pages. -/
def c3StU : Py.ScrollState :=
  ⟨["https://www.ulta.com/p/a-pimprod1", "https://www.ulta.com/p/b-pimprod2",
    "https://www.ulta.com/p/c-pimprod3"],
   ["https://www.ulta.com/p/a-pimprod1", "https://www.ulta.com/p/b-pimprod2",
    "https://www.ulta.com/p/c-pimprod3"], 3, 0⟩

/-- State of the Sephora scroll loop after round 3 on c3Pages. -/
def c3StS : Py.ScrollState :=
  ⟨["https://www.sephora.com/product/a-P1", "https://www.sephora.com/product/b-P2",
    "https://www.sephora.com/product/c-P3"],
   ["https://www.sephora.com/product/a-P1", "https://www.sephora.com/product/b-P2",
    "https://www.sephora.com/product/c-P3"], 3, 0⟩



namespace Py

/-- Python truthiness of an optional string (None and the empty string are
falsy). -/
def truthyS : Option String → Bool
  | none => false
  | some s => ¬ s.isEmpty

/-- Instrumentation record for one issued review-API request: the offset
requested, the number of review records the page contributed, the total
the page reported (0 when the loop broke before reading it), and the
accumulated count after the page was processed. -/
structure PageVisit where
  offset : Nat
  got : Nat
  totalReported : Nat
  accAfter : Nat
  deriving Repr, DecidableEq

end Py

namespace Ulta

/-- Fields read from one review object of a PowerReviews page:
rev.get("details", \{\}), rev.get("metrics", \{\}) and
rev.get("badges", \{\}) with the .get defaults of the source. -/
structure PRReview where
  ugcId : Option String
  rating : Option Int
  headline : Option String
  comments : Option String
  createdDate : Option String
  nickname : Option String
  location : Option String
  bottomLine : Option String
  helpfulVotes : Option Int
  notHelpfulVotes : Option Int
  isVerifiedBuyer : Option Bool
  isVerifiedReviewer : Option Bool
  disclosureCode : Option String
  deriving Repr, DecidableEq

/-- One element of the results array of a PowerReviews page (only its
nested reviews array is read). -/
structure PRResult where
  reviews : List PRReview
  deriving Repr, DecidableEq

/-- Decoded JSON of one PowerReviews response: HTTP status, the results
array, and paging.total_results (0 when absent). -/
structure PRResponse where
  status : Nat
  results : List PRResult
  totalResults : Nat
  deriving Repr, DecidableEq

/-- The review row built for each rev in reviews_list (dict appended to
all_reviews in scrape_ulta.py lines 470 to 485). -/
structure UReviewRecord where
  pd_id : String
  review_id : Option String
  rating : Option Int
  headline : Option String
  reviewText : Option String
  submissionTime : Option String
  nickname : Option String
  location : Option String
  bottom_line : Option String
  helpful_votes : Int
  not_helpful_votes : Int
  is_verified_buyer : Bool
  is_verified_reviewer : Bool
  disclosure_code : Option String
  deriving Repr, DecidableEq

/-- Mapping of one PowerReviews review object to the appended row,
including the metrics.get(..., 0) and badges.get(..., False) defaults. -/
def toReviewRecord (productId : String) (rev : PRReview) : UReviewRecord :=
  { pd_id := productId, review_id := rev.ugcId, rating := rev.rating,
    headline := rev.headline, reviewText := rev.comments,
    submissionTime := rev.createdDate, nickname := rev.nickname,
    location := rev.location, bottom_line := rev.bottomLine,
    helpful_votes := rev.helpfulVotes.getD 0,
    not_helpful_votes := rev.notHelpfulVotes.getD 0,
    is_verified_buyer := rev.isVerifiedBuyer.getD false,
    is_verified_reviewer := rev.isVerifiedReviewer.getD false,
    disclosure_code := rev.disclosureCode }

/-- Result of fetch_reviews: the returned rows plus the instrumentation
trace, one PageVisit per issued HTTP request. -/
structure FetchResult where
  reviews : List UReviewRecord
  trace : List Py.PageVisit
  deriving Repr, DecidableEq

/-- Translation of the page loop of fetch_reviews (scrape_ulta.py lines
436 to 494).  server is the review API: it maps a requested offset to the
decoded response, none meaning requests.get raised (both cases break).
Pages are requested at offset page * pageSize; the loop breaks on a
non-200 status, an empty results array, an empty reviews_list, or once
the accumulated count reaches the reported total or max_reviews. -/
def fetchLoop (server : Nat → Option PRResponse) (productId : String)
    (maxReviews pageSize : Nat) :
    Nat → Nat → List UReviewRecord → List Py.PageVisit → FetchResult
  | 0, _, acc, tr => ⟨acc, tr⟩
  | fuel + 1, page, acc, tr =>
    let offset := page * pageSize
    match server offset with
    | none => ⟨acc, tr ++ [⟨offset, 0, 0, acc.length⟩]⟩
    | some r =>
      if r.status ≠ 200 then ⟨acc, tr ++ [⟨offset, 0, 0, acc.length⟩]⟩
      else
        match r.results with
        | [] => ⟨acc, tr ++ [⟨offset, 0, 0, acc.length⟩]⟩
        | res0 :: _ =>
          match res0.reviews with
          | [] => ⟨acc, tr ++ [⟨offset, 0, 0, acc.length⟩]⟩
          | _ :: _ =>
            if r.totalResults ≤ (acc ++ res0.reviews.map (toReviewRecord productId)).length ∨
                maxReviews ≤ (acc ++ res0.reviews.map (toReviewRecord productId)).length then
              ⟨acc ++ res0.reviews.map (toReviewRecord productId),
               tr ++ [⟨offset, res0.reviews.length, r.totalResults,
                 (acc ++ res0.reviews.map (toReviewRecord productId)).length⟩]⟩
            else
              fetchLoop server productId maxReviews pageSize fuel (page + 1)
                (acc ++ res0.reviews.map (toReviewRecord productId))
                (tr ++ [⟨offset, res0.reviews.length, r.totalResults,
                  (acc ++ res0.reviews.map (toReviewRecord productId)).length⟩])

/-- Translation of fetch_reviews (scrape_ulta.py lines 419 to 502).
server takes the product id (part of the request URL) and the offset.
A falsy product id returns []; max_pages is the ceiling of
max_reviews / pageSize (pageSize is the PR_PAGE_SIZE configuration
constant, 25 in the source); the accumulated list is finally trimmed to
all_reviews[:max_reviews]. -/
def fetch_reviews (server : String → Nat → Option PRResponse)
    (product_id : Option String) (max_reviews pageSize : Nat) : FetchResult :=
  if ¬ Py.truthyS product_id then ⟨[], []⟩
  else
    let pid := product_id.getD ""
    let maxPages := (max_reviews + pageSize - 1) / pageSize
    let r := fetchLoop (server pid) pid max_reviews pageSize maxPages 0 [] []
    ⟨r.reviews.take max_reviews, r.trace⟩

end Ulta

namespace Sephora

/-- Fields read from one Bazaarvoice review object, with the Value fields
of the skinTone and skinType context data. -/
structure SReview where
  rating : Option Int
  reviewText : Option String
  submissionTime : Option String
  totalPositiveFeedbackCount : Option Int
  skinToneValue : Option String
  skinTypeValue : Option String
  deriving Repr, DecidableEq

/-- Decoded JSON of one Bazaarvoice response: HTTP status, Results and
TotalResults (0 when absent). -/
structure BVResponse where
  status : Nat
  results : List SReview
  totalResults : Nat
  deriving Repr, DecidableEq

/-- The review row built for each rev in Results (scrape_sephora.py lines
565 to 575). -/
structure SReviewRecord where
  pd_id : Option String
  rating : Option Int
  reviewText : Option String
  submissionTime : Option String
  helpfulness : Option Int
  skinTone : Option String
  skinType : Option String
  deriving Repr, DecidableEq

/-- Mapping of one Bazaarvoice review object to the appended row. -/
def toReviewRecord (pNumber : Option String) (rev : SReview) : SReviewRecord :=
  { pd_id := pNumber, rating := rev.rating, reviewText := rev.reviewText,
    submissionTime := rev.submissionTime,
    helpfulness := rev.totalPositiveFeedbackCount,
    skinTone := rev.skinToneValue, skinType := rev.skinTypeValue }

/-- The ProductId request parameter: P-prefixed unless the passed value
already starts with P (str(None) is the literal None string). -/
def bvRequestProductId (p_number : Option String) : String :=
  let s := match p_number with | none => "None" | some v => v
  if ¬ s.startsWith "P" then "P" ++ s else s

/-- Result of the Sephora fetch_reviews: rows plus one PageVisit per
issued request. -/
structure SFetchResult where
  reviews : List SReviewRecord
  trace : List Py.PageVisit
  deriving Repr, DecidableEq

/-- Translation of the page loop of fetch_reviews (scrape_sephora.py
lines 552 to 584): each request is issued at Offset = len(all_reviews);
the loop breaks on a request exception, a non-200 status, an empty
Results array, or once the accumulated count reaches TotalResults. -/
def sFetchLoop (server : Nat → Option BVResponse) (pNumber : Option String) :
    Nat → List SReviewRecord → List Py.PageVisit → SFetchResult
  | 0, acc, tr => ⟨acc, tr⟩
  | fuel + 1, acc, tr =>
    let offset := acc.length
    match server offset with
    | none => ⟨acc, tr ++ [⟨offset, 0, 0, acc.length⟩]⟩
    | some r =>
      if r.status ≠ 200 then ⟨acc, tr ++ [⟨offset, 0, 0, acc.length⟩]⟩
      else
        match r.results with
        | [] => ⟨acc, tr ++ [⟨offset, 0, 0, acc.length⟩]⟩
        | _ :: _ =>
          if r.totalResults ≤ (acc ++ r.results.map (toReviewRecord pNumber)).length then
            ⟨acc ++ r.results.map (toReviewRecord pNumber),
             tr ++ [⟨offset, r.results.length, r.totalResults,
               (acc ++ r.results.map (toReviewRecord pNumber)).length⟩]⟩
          else
            sFetchLoop server pNumber fuel
              (acc ++ r.results.map (toReviewRecord pNumber))
              (tr ++ [⟨offset, r.results.length, r.totalResults,
                (acc ++ r.results.map (toReviewRecord pNumber)).length⟩])

/-- Translation of fetch_reviews (scrape_sephora.py lines 530 to 589):
a falsy bv_id returns []; otherwise up to max_pages pages are fetched,
with the request ProductId derived from p_number. -/
def fetch_reviews (server : String → Nat → Option BVResponse)
    (bv_id : Option String) (p_number : Option String) (max_pages : Nat) :
    SFetchResult :=
  if ¬ Py.truthyS bv_id then ⟨[], []⟩
  else sFetchLoop (server (bvRequestProductId p_number)) p_number max_pages [] []

end Sephora

/-- Review content of the pagination stubs (field values are irrelevant to
the pagination logic). -/
def stubReview : Ulta.PRReview :=
  ⟨none, none, none, none, none, none, none, none, none, none, none, none, none⟩

/-- PowerReviews stub reporting total 45 with pages of 20 results: offsets
0 and 20 return 20 reviews each, offset 40 returns the remaining 5, and
later offsets are empty. -/
def c4StubU : String → Nat → Option Ulta.PRResponse := fun _ offset =>
  if offset = 0 then some ⟨200, [⟨List.replicate 20 stubReview⟩], 45⟩
  else if offset = 20 then some ⟨200, [⟨List.replicate 20 stubReview⟩], 45⟩
  else if offset = 40 then some ⟨200, [⟨List.replicate 5 stubReview⟩], 45⟩
  else some ⟨200, [], 45⟩

/-- Bazaarvoice variant of the same stub. -/
def sStubReview : Sephora.SReview := ⟨none, none, none, none, none, none⟩

/-- Bazaarvoice stub reporting TotalResults 45 with pages of 20. -/
def c4StubS : String → Nat → Option Sephora.BVResponse := fun _ offset =>
  if offset = 0 then some ⟨200, List.replicate 20 sStubReview, 45⟩
  else if offset = 20 then some ⟨200, List.replicate 20 sStubReview, 45⟩
  else if offset = 40 then some ⟨200, List.replicate 5 sStubReview, 45⟩
  else some ⟨200, [], 45⟩



namespace Py

/-- Decoded JSON values as Python objects, restricted to the fragment the
scrapers inspect on the modelled pages: null, strings, objects and
arrays.  Numeric and boolean leaves are not inspected by the translated
field logic of the modelled pages. -/
inductive PyVal where
  | vnone
  | vstr (s : String)
  | vdict (kvs : List (String × PyVal))
  | vlist (xs : List PyVal)
  deriving Repr

/-- Python truthiness of the modelled values. -/
def pyTruthy : PyVal → Bool
  | .vnone => false
  | .vstr s => ¬ s.isEmpty
  | .vdict kvs => ¬ kvs.isEmpty
  | .vlist xs => ¬ xs.isEmpty

/-- Python equality test of a value against a string literal (a non-string
value never equals a string). -/
def pyEqStr : PyVal → String → Bool
  | .vstr t, s => t == s
  | _, _ => false

/-- Lookup with default in a decoded object: d.get(k, dflt). -/
def dictGetD (kvs : List (String × PyVal)) (k : String) (dflt : PyVal) : PyVal :=
  (kvs.lookup k).getD dflt

/-- Python v.get(k, dflt) on an arbitrary value; none models the
AttributeError raised when the receiver is not a dict. -/
def pyGetD (v : PyVal) (k : String) (dflt : PyVal) : Option PyVal :=
  match v with
  | .vdict kvs => some (dictGetD kvs k dflt)
  | _ => none

/-- Rendering of a value inside an f-string; only string leaves are
rendered on the modelled pages. -/
def pyFStr : PyVal → String
  | .vstr s => s
  | .vnone => "None"
  | .vdict _ => ""
  | .vlist _ => ""

/-- Python s.strip(chars) for an explicit character set. -/
def stripCharsL (cs : List Char) (l : List Char) : List Char :=
  ((l.dropWhile (cs.contains ·)).reverse.dropWhile (cs.contains ·)).reverse

/-- The unwrap at the head of each JSON-LD block:
if isinstance(ld, list): ld = ld[0]; none models the IndexError on an
empty array (caught by the enclosing try/except). -/
def ldUnwrap : PyVal → Option PyVal
  | .vlist [] => none
  | .vlist (x :: _) => some x
  | v => some v

/-- CSS fallback loop that resets the variable to None when a candidate
fails validation, so that after the loop the variable is either the first
valid text or None. -/
def cssLoopReset (selText : String → Option String) (ok : String → Bool) :
    List String → PyVal
  | [] => .vnone
  | sel :: rest =>
    match selText sel with
    | some s => if ok s then .vstr s else cssLoopReset selText ok rest
    | none => cssLoopReset selText ok rest

/-- CSS fallback loop without a reset: it breaks on the first truthy text,
otherwise the last probe result (possibly an empty string or None)
persists. -/
def cssLoopKeep (selText : String → Option String) : List String → PyVal
  | [] => .vnone
  | [sel] =>
    match selText sel with
    | some s => .vstr s
    | none => .vnone
  | sel :: rest =>
    match selText sel with
    | some s => if ¬ s.isEmpty then .vstr s else cssLoopKeep selText rest
    | none => cssLoopKeep selText rest

end Py

namespace Ulta

/-- The local variables of scrape_product_page, all initialized to None
(review_count is extracted alongside rating but not returned). -/
structure UFields where
  name : Py.PyVal
  brand : Py.PyVal
  price : Py.PyVal
  rating : Py.PyVal
  category : Py.PyVal
  reviewCount : Py.PyVal
  deriving Repr

/-- The returned dict of scrape_product_page (scrape_ulta.py lines 404 to
412). -/
structure UProductRecord where
  product_id : Option String
  product_url : String
  brand : Py.PyVal
  product_name : Py.PyVal
  category : Py.PyVal
  price : Py.PyVal
  rating : Py.PyVal
  deriving Repr

/-- Price extraction from the offers value (scrape_ulta.py lines 308 to
315): p = offers.get("price") or offers.get("lowPrice"); a truthy p sets
price to the dollar-prefixed f-string. -/
def priceFromOffers (f : UFields) (offers : Py.PyVal) : UFields :=
  match offers with
  | .vdict kvs =>
    let p1 := Py.dictGetD kvs "price" .vnone
    let p := if Py.pyTruthy p1 then p1 else Py.dictGetD kvs "lowPrice" .vnone
    if Py.pyTruthy p then { f with price := .vstr ("$" ++ Py.pyFStr p) } else f
  | _ => f

/-- Rating with review count, and category, from one JSON-LD Product
block (scrape_ulta.py lines 316 to 322). -/
def ldRatingCategory (f : UFields) (ld : Py.PyVal) : UFields :=
  let f1 :=
    if ¬ Py.pyTruthy f.rating then
      match (Py.pyGetD ld "aggregateRating" (.vdict [])).getD .vnone with
      | .vdict kvs =>
        if Py.pyTruthy (Py.dictGetD kvs "ratingValue" .vnone) then
          { f with rating := Py.dictGetD kvs "ratingValue" .vnone,
                   reviewCount := Py.dictGetD kvs "reviewCount" .vnone }
        else f
      | _ => f
    else f
  if ¬ Py.pyTruthy f1.category then
    { f1 with category := (Py.pyGetD ld "category" .vnone).getD .vnone }
  else f1

/-- Strategy 1 of scrape_product_page (scrape_ulta.py lines 296 to 324):
processing of one parsed JSON-LD block.  json.loads failures (none) and
non-Product blocks are skipped; an IndexError on an empty offers array
aborts the rest of the block but keeps the name and brand already
assigned, exactly as the enclosing try/except does. -/
def processLd (f : UFields) (script : Option Py.PyVal) : UFields :=
  match script with
  | none => f
  | some ld0 =>
    match Py.ldUnwrap ld0 with
    | none => f
    | some ld =>
      match Py.pyGetD ld "@type" .vnone with
      | none => f
      | some t =>
        if ¬ Py.pyEqStr t "Product" then f
        else
          let f1 := if ¬ Py.pyTruthy f.name then
              { f with name := (Py.pyGetD ld "name" .vnone).getD .vnone }
            else f
          let f2 := if ¬ Py.pyTruthy f1.brand then
              { f1 with brand :=
                  match (Py.pyGetD ld "brand" (.vdict [])).getD .vnone with
                  | .vdict kvs => Py.dictGetD kvs "name" .vnone
                  | b => b }
            else f1
          if ¬ Py.pyTruthy f2.price then
            match (Py.pyGetD ld "offers" (.vdict [])).getD .vnone with
            | .vlist [] => f2
            | .vlist (o :: _) => ldRatingCategory (priceFromOffers f2 o) ld
            | o => ldRatingCategory (priceFromOffers f2 o) ld
          else ldRatingCategory f2 ld

/-- Validation of a candidate product name in the Ulta CSS loop (line
336): truthy, longer than 2 characters, and not the string ulta
case-insensitively. -/
def nameOk (s : String) : Bool :=
  !s.isEmpty && decide (2 < s.length) && decide (Py.pyLower s ≠ "ulta")

/-- Validation of a candidate price in the Ulta CSS loop (line 359):
truthy and containing a dollar sign. -/
def priceOk (s : String) : Bool :=
  !s.isEmpty && Py.containsSub "$".toList s.toList

/-- The name selector chain (scrape_ulta.py lines 328 to 334). -/
def nameSelectors : List String :=
  ["h1.ProductMainSection__productName", "h1[class*='productName']",
   "h1[class*='ProductName']", "span[class*='ProductName']", "h1"]

/-- The brand selector chain (lines 341 to 346). -/
def brandSelectors : List String :=
  ["a.ProductMainSection__brandName", "a[class*='brandName']",
   "a[class*='BrandName']", "span[class*='brandName']"]

/-- The price selector chain (lines 352 to 357). -/
def priceSelectors : List String :=
  ["span[class*='Price']", "div[class*='Price']",
   "span.ProductPricingPanel__price", "[data-testid='product-price']"]

/-- External content of a rendered Ulta product page: the parsed JSON-LD
blocks in document order (none marks a json.loads failure), the
safe_text and safe_attr probe results per selector, group 1 of the two
regex probes over the raw page source (price and average_rating), the
soup breadcrumb item texts (as given by get_text(strip=True)), and the
live-DOM breadcrumb item texts. -/
structure Page where
  ldScripts : List (Option Py.PyVal)
  selText : String → Option String
  selAttr : String → String → Option String
  rawPriceMatch : Option String
  rawRatingMatch : Option String
  bcItems : List String
  domBcItems : List String

/-- Translation of scrape_product_page (scrape_ulta.py lines 279 to 412):
JSON-LD structured data first, then CSS selectors, then meta tags, then
regex over the raw page source, then the breadcrumb category with its
live-DOM fallback. -/
def scrape_product_page (pg : Page) (url : String) : UProductRecord :=
  let pid := extract_product_id url
  let f : UFields := ⟨.vnone, .vnone, .vnone, .vnone, .vnone, .vnone⟩
  -- Strategy 1: JSON-LD structured data
  let f := pg.ldScripts.foldl processLd f
  -- Strategy 2: CSS selectors
  let f := if ¬ Py.pyTruthy f.name then
      { f with name := Py.cssLoopReset pg.selText nameOk nameSelectors }
    else f
  let f := if ¬ Py.pyTruthy f.brand then
      { f with brand := Py.cssLoopKeep pg.selText brandSelectors }
    else f
  let f := if ¬ Py.pyTruthy f.price then
      { f with price := Py.cssLoopReset pg.selText priceOk priceSelectors }
    else f
  -- Strategy 3: meta tags
  let f := if ¬ Py.pyTruthy f.name then
      match pg.selAttr "meta[property='og:title']" "content" with
      | some og =>
        if ¬ og.isEmpty then
          { f with name := (.vstr (String.mk (Py.stripL (Py.splitFirstL '-'
              (Py.splitFirstL '|' og.toList))))) }
        else f
      | none => f
    else f
  let f := if ¬ Py.pyTruthy f.brand then
      { f with brand :=
          match pg.selAttr "meta[property='product:brand']" "content" with
          | some s => .vstr s
          | none => .vnone }
    else f
  let f := if ¬ Py.pyTruthy f.price then
      let p : Py.PyVal :=
        match pg.selAttr "meta[property='product:price:amount']" "content" with
        | some s =>
          if ¬ s.isEmpty then .vstr s
          else
            match pg.selAttr "meta[property='og:price:amount']" "content" with
            | some t => .vstr t
            | none => .vnone
        | none =>
          match pg.selAttr "meta[property='og:price:amount']" "content" with
          | some t => .vstr t
          | none => .vnone
      match p with
      | .vstr s =>
        if ¬ s.isEmpty then
          { f with price :=
              if ¬ s.startsWith "$" then .vstr ("$" ++ s) else .vstr s }
        else f
      | _ => f
    else f
  -- Strategy 4: regex on the raw page source
  let f := if ¬ Py.pyTruthy f.price then
      match pg.rawPriceMatch with
      | some g => { f with price := .vstr ("$" ++ g) }
      | none => f
    else f
  let f := if ¬ Py.pyTruthy f.rating then
      match pg.rawRatingMatch with
      | some g => { f with rating := .vstr g }
      | none => f
    else f
  -- Category from breadcrumbs
  let f := if ¬ Py.pyTruthy f.category then
      if pg.bcItems.isEmpty then f
      else
        match (pg.bcItems.filter
            (fun t => decide (Py.pyLower t ≠ "home"))).getLast? with
        | some t => { f with category := .vstr t }
        | none => f
    else f
  let f := if ¬ Py.pyTruthy f.category then
      match pg.domBcItems.getLast? with
      | some t => { f with category := .vstr (Py.pyStrip t) }
      | none => f
    else f
  { product_id := pid, product_url := url, brand := f.brand,
    product_name := f.name, category := f.category, price := f.price,
    rating := f.rating }

end Ulta

namespace Sephora

/-- The field variables of scrape_product_page (scrape_sephora.py lines
355 to 359), all initialized to None. -/
structure SFields where
  brand : Py.PyVal
  name : Py.PyVal
  price : Py.PyVal
  rating : Py.PyVal
  category : Py.PyVal
  deriving Repr

/-- The returned dict of scrape_product_page (scrape_sephora.py lines 519
to 528). -/
structure SProductRecord where
  product_id : Option String
  bv_product_id : Py.PyVal
  product_url : String
  brand : Py.PyVal
  product_name : Py.PyVal
  category : Py.PyVal
  price : Py.PyVal
  rating : Py.PyVal
  deriving Repr

/-- Translation of extract_bv_product_id (scrape_sephora.py lines 129 to
146): the chain of .get calls over the parsed __NEXT_DATA__ JSON (the
oracle carries the parse result, none when the marker is absent or
json.loads fails); any exception returns None, collapsed here with a
successful None result. -/
def extract_bv_product_id (nextData : Option Py.PyVal) : Py.PyVal :=
  match nextData with
  | none => .vnone
  | some data =>
    match Py.pyGetD data "props" (.vdict []) with
    | none => .vnone
    | some props =>
      match Py.pyGetD props "pageProps" (.vdict []) with
      | none => .vnone
      | some pp =>
        match Py.pyGetD pp "product" (.vdict []) with
        | none => .vnone
        | some prod =>
          match Py.pyGetD prod "productId" .vnone with
          | none => .vnone
          | some v => v

/-- Price extraction from the offers value (scrape_sephora.py lines 457
to 464), identical in shape to the Ulta variant. -/
def sPriceFromOffers (f : SFields) (offers : Py.PyVal) : SFields :=
  match offers with
  | .vdict kvs =>
    let p1 := Py.dictGetD kvs "price" .vnone
    let p := if Py.pyTruthy p1 then p1 else Py.dictGetD kvs "lowPrice" .vnone
    if Py.pyTruthy p then { f with price := .vstr ("$" ++ Py.pyFStr p) } else f
  | _ => f

/-- Rating and category from one JSON-LD Product block (scrape_sephora.py
lines 465 to 470); rating is assigned the ratingValue even when that
value is absent (None). -/
def sLdRatingCategory (f : SFields) (ld : Py.PyVal) : SFields :=
  let f1 :=
    if ¬ Py.pyTruthy f.rating then
      match (Py.pyGetD ld "aggregateRating" (.vdict [])).getD .vnone with
      | .vdict kvs => { f with rating := Py.dictGetD kvs "ratingValue" .vnone }
      | _ => f
    else f
  if ¬ Py.pyTruthy f1.category then
    { f1 with category := (Py.pyGetD ld "category" .vnone).getD .vnone }
  else f1

/-- Strategy 3 of scrape_product_page (scrape_sephora.py lines 445 to
472): processing of one parsed JSON-LD block, with the same skip and
abort semantics as in the Ulta variant. -/
def processLdS (f : SFields) (script : Option Py.PyVal) : SFields :=
  match script with
  | none => f
  | some ld0 =>
    match Py.ldUnwrap ld0 with
    | none => f
    | some ld =>
      match Py.pyGetD ld "@type" .vnone with
      | none => f
      | some t =>
        if ¬ Py.pyEqStr t "Product" then f
        else
          let f1 := if ¬ Py.pyTruthy f.name then
              { f with name := (Py.pyGetD ld "name" .vnone).getD .vnone }
            else f
          let f2 := if ¬ Py.pyTruthy f1.brand then
              { f1 with brand :=
                  match (Py.pyGetD ld "brand" (.vdict [])).getD .vnone with
                  | .vdict kvs => Py.dictGetD kvs "name" .vnone
                  | b => b }
            else f1
          if ¬ Py.pyTruthy f2.price then
            match (Py.pyGetD ld "offers" (.vdict [])).getD .vnone with
            | .vlist [] => f2
            | .vlist (o :: _) => sLdRatingCategory (sPriceFromOffers f2 o) ld
            | o => sLdRatingCategory (sPriceFromOffers f2 o) ld
          else sLdRatingCategory f2 ld

/-- The rating fallback over all JSON-LD blocks, Product or not
(scrape_sephora.py lines 475 to 486). -/
def ratingFromAllLd : List (Option Py.PyVal) → Py.PyVal
  | [] => .vnone
  | script :: rest =>
    match script with
    | none => ratingFromAllLd rest
    | some ld0 =>
      match Py.ldUnwrap ld0 with
      | none => ratingFromAllLd rest
      | some ld =>
        match Py.pyGetD ld "aggregateRating" (.vdict []) with
        | none => ratingFromAllLd rest
        | some agg =>
          match agg with
          | .vdict kvs =>
            if Py.pyTruthy (Py.dictGetD kvs "ratingValue" .vnone) then
              Py.dictGetD kvs "ratingValue" .vnone
            else ratingFromAllLd rest
          | _ => ratingFromAllLd rest

/-- Group 0 of re.search(r"\$[\d,.]+", s): the first dollar sign followed
by at least one digit, comma or dot, with the greedy run. -/
def findDollarAmount : List Char → Option String
  | [] => none
  | c :: rest =>
    if c = '$' then
      match rest with
      | d :: _ =>
        if d.isDigit || d = ',' || d = '.' then
          some (String.mk ('$' ::
            rest.takeWhile (fun x => x.isDigit || x = ',' || x = '.')))
        else findDollarAmount rest
      | [] => none
    else findDollarAmount rest

/-- The brand selector chain (scrape_sephora.py lines 383 to 387). -/
def brandSelectors : List String :=
  ["a[data-at='brand_name']", "a[data-comp*='BrandName']",
   "span[data-at='brand_name']"]

/-- The name selector chain (lines 388 to 392). -/
def nameSelectors : List String :=
  ["span[data-at='product_title']", "h1[data-at='product_title']",
   "span[data-comp*='DisplayName']"]

/-- The price selector chain (lines 393 to 398). -/
def priceSelectors : List String :=
  ["[data-at='price']", "p[data-comp*='Price']", "div[data-at='price']",
   "b[data-at='price']"]

/-- The rating selector chain (lines 399 to 402). -/
def ratingSelectors : List String :=
  ["span[data-at='rating']", "div[data-at='rating']"]

/-- The rating CSS loop (lines 422 to 427):
r = safe_attr(sel, aria-label) or safe_text(sel), keeping the first
truthy candidate. -/
def ratingLoop (selAttr : String → String → Option String)
    (selText : String → Option String) : List String → Py.PyVal
  | [] => .vnone
  | sel :: rest =>
    let a := (selAttr sel "aria-label").getD ""
    let t := (selText sel).getD ""
    let r := if ¬ a.isEmpty then a else t
    if ¬ r.isEmpty then .vstr r else ratingLoop selAttr selText rest

/-- External content of a rendered Sephora product page: the live-DOM
probe of Sephora.productPage (bvProductId, brandName, displayName; none
marks an execute_script exception), the parsed __NEXT_DATA__ JSON, the
safe_text / safe_attr probe results per selector, the parsed JSON-LD
blocks, group 1 of the raw-source price regex, the JS price probe
(outer none marks an exception, inner none a null innerText), and the
live-DOM breadcrumb item texts. -/
structure Page where
  jsProbe : Option (Py.PyVal × Py.PyVal × Py.PyVal)
  nextData : Option Py.PyVal
  selText : String → Option String
  selAttr : String → String → Option String
  ldScripts : List (Option Py.PyVal)
  rawPriceMatch : Option String
  jsPriceProbe : Option (Option String)
  domBcItems : List String

/-- Translation of scrape_product_page (scrape_sephora.py lines 346 to
528): the live-DOM probe first (bv id, brand, name), then the
__NEXT_DATA__ bv-id fallback, then CSS selectors, meta tags, JSON-LD,
the rating and price fallbacks, the breadcrumb category, and the
brand-prefix cleanup of the product name. -/
def scrape_product_page (pg : Page) (url : String) : SProductRecord :=
  let p_url_id := extract_product_id url
  let probed : Py.PyVal × Py.PyVal × Py.PyVal :=
    match pg.jsProbe with
    | some v => v
    | none => (.vnone, .vnone, .vnone)
  let bv_id : Py.PyVal :=
    if Py.pyTruthy probed.1 then .vstr (Py.pyStrip (Py.pyFStr probed.1))
    else .vnone
  let f : SFields := ⟨probed.2.1, probed.2.2, .vnone, .vnone, .vnone⟩
  -- Fallback: __NEXT_DATA__ for the bv product id
  let bv_id := if ¬ Py.pyTruthy bv_id then extract_bv_product_id pg.nextData
    else bv_id
  -- Strategy 1: CSS selectors
  let f := if ¬ Py.pyTruthy f.brand then
      { f with brand := Py.cssLoopKeep pg.selText brandSelectors }
    else f
  let f := if ¬ Py.pyTruthy f.name then
      { f with name := Py.cssLoopKeep pg.selText nameSelectors }
    else f
  let f := if ¬ Py.pyTruthy f.price then
      { f with price := Py.cssLoopKeep pg.selText priceSelectors }
    else f
  let f := if ¬ Py.pyTruthy f.rating then
      { f with rating := ratingLoop pg.selAttr pg.selText ratingSelectors }
    else f
  -- Strategy 2: meta tags
  let f := if ¬ Py.pyTruthy f.name then
      match pg.selAttr "meta[property='og:title']" "content" with
      | some og =>
        if ¬ og.isEmpty then
          { f with name := (.vstr (String.mk (Py.stripL
              (Py.splitFirstL '|' og.toList)))) }
        else f
      | none => f
    else f
  let f := if ¬ Py.pyTruthy f.brand then
      { f with brand :=
          match pg.selAttr "meta[property='product:brand']" "content" with
          | some s => .vstr s
          | none => .vnone }
    else f
  let f := if ¬ Py.pyTruthy f.price then
      let p : Py.PyVal :=
        match pg.selAttr "meta[property='product:price:amount']" "content" with
        | some s =>
          if ¬ s.isEmpty then .vstr s
          else
            match pg.selAttr "meta[property='og:price:amount']" "content" with
            | some t => .vstr t
            | none => .vnone
        | none =>
          match pg.selAttr "meta[property='og:price:amount']" "content" with
          | some t => .vstr t
          | none => .vnone
      match p with
      | .vstr s =>
        if ¬ s.isEmpty && ¬ s.startsWith "$" then
          { f with price := .vstr ("$" ++ s) }
        else { f with price := p }
      | _ => { f with price := p }
    else f
  -- Strategy 3: JSON-LD (strict, only @type Product)
  let f := pg.ldScripts.foldl processLdS f
  -- Rating fallback: all JSON-LD blocks
  let f := if ¬ Py.pyTruthy f.rating then
      (let r := ratingFromAllLd pg.ldScripts
       if Py.pyTruthy r then { f with rating := r } else f)
    else f
  -- Price fallback: regex on the raw page source
  let f := if ¬ Py.pyTruthy f.price then
      match pg.rawPriceMatch with
      | some g => { f with price := .vstr ("$" ++ g) }
      | none => f
    else f
  -- Price fallback: JS extraction from the rendered DOM
  let f := if ¬ Py.pyTruthy f.price then
      match pg.jsPriceProbe with
      | some (some jsP) =>
        if ¬ jsP.isEmpty then
          match findDollarAmount jsP.toList with
          | some m => { f with price := .vstr m }
          | none => f
        else f
      | _ => f
    else f
  -- Category from breadcrumbs (last element, no filtering)
  let f := if ¬ Py.pyTruthy f.category then
      match pg.domBcItems.getLast? with
      | some t => { f with category := .vstr t }
      | none => f
    else f
  -- Clean up product name (brand prefix)
  let f : SFields :=
    match f.name, f.brand with
    | .vstr n, .vstr b =>
      if ¬ n.isEmpty && ¬ b.isEmpty && n.startsWith b then
        { f with name := (.vstr (String.mk (Py.stripCharsL
            [' ', '-', '–', '—'] (n.toList.drop b.length)))) }
      else f
    | _, _ => f
  { product_id := p_url_id,
    bv_product_id :=
      if Py.pyTruthy bv_id then bv_id
      else match p_url_id with
        | some s => .vstr s
        | none => .vnone,
    product_url := url, brand := f.brand, product_name := f.name,
    category := f.category, price := f.price, rating := f.rating }

end Sephora



/-- A JSON-LD Product block exposing a structured-data product name. -/
def productLdName (a : String) : Py.PyVal :=
  .vdict [("@type", .vstr "Product"), ("name", .vstr a)]

/-- Ulta product page exposing the name both via structured data (value
a) and via the first name CSS selector (value b); every other probe
abstains. -/
def c2PageU (a b : String) : Ulta.Page :=
  { ldScripts := [some (productLdName a)],
    selText := fun sel =>
      if sel = "h1.ProductMainSection__productName" then some b else none,
    selAttr := fun _ _ => none, rawPriceMatch := none, rawRatingMatch := none,
    bcItems := [], domBcItems := [] }

/-- Sephora product page exposing the name both via structured data
(value a) and via the first name CSS selector (value b); the live-DOM
probe and every other probe abstain. -/
def c2PageS (a b : String) : Sephora.Page :=
  { jsProbe := none, nextData := none,
    selText := fun sel =>
      if sel = "span[data-at='product_title']" then some b else none,
    selAttr := fun _ _ => none, ldScripts := [some (productLdName a)],
    rawPriceMatch := none, jsPriceProbe := none, domBcItems := [] }

/-- Ulta product page whose only content is its two breadcrumb trails
(the soup-parsed items and the live-DOM items); every field probe
abstains and there is no structured data. -/
def c9PageU (items domItems : List String) : Ulta.Page :=
  { ldScripts := [], selText := fun _ => none, selAttr := fun _ _ => none,
    rawPriceMatch := none, rawRatingMatch := none,
    bcItems := items, domBcItems := domItems }

/-- Sephora product page whose only content is its live-DOM breadcrumb
trail; every other probe abstains and there is no structured data. -/
def c9PageS (domItems : List String) : Sephora.Page :=
  { jsProbe := none, nextData := none, selText := fun _ => none,
    selAttr := fun _ _ => none, ldScripts := [],
    rawPriceMatch := none, jsPriceProbe := none, domBcItems := domItems }



namespace Py

/-- Insertion into a Python set modelled as a duplicate-free list. -/
def insertU (x : String) (xs : List String) : List String :=
  if x ∈ xs then xs else xs ++ [x]

end Py

namespace Sephora

/-- Coercion of a modelled Python value to the optional string consumed
by fetch_reviews (only string and None values flow into bv_id on the
modelled pages). -/
def pyOptStr : Py.PyVal → Option String
  | .vstr s => some s
  | _ => none

/-- External inputs of one Sephora run: the brand listing (the output of
get_brand_urls), the product links each brand page yields (the output of
get_product_urls_from_brand), the rendered content of each product page,
and the review API. -/
structure Site where
  brandUrls : List String
  productUrls : String → List String
  pageFor : String → Page
  reviewServer : String → Nat → Option BVResponse

/-- Accumulators of the Sephora main (scrape_sephora.py lines 602 to
604): all_products, all_reviews, seen_product_ids.  The seen set holds
Option String because p_url_id can be None and main inserts it
unchecked. -/
structure SRunState where
  products : List SProductRecord
  reviews : List SReviewRecord
  seen : List (Option String)

/-- Translation of the per-product loop of the Sephora main
(scrape_sephora.py lines 614 to 644): the global cap breaks the loop, a
product id already in seen_product_ids is skipped, otherwise the id is
inserted (even when it is None), the record appended, and reviews
fetched. -/
def sProductLoop (site : Site) (cap : Nat) :
    List String → SRunState → SRunState
  | [], st => st
  | url :: rest, st =>
    if cap ≤ st.seen.length then st
    else
      let prod := scrape_product_page (site.pageFor url) url
      if prod.product_id ∈ st.seen then sProductLoop site cap rest st
      else
        let st1 : SRunState :=
          { st with seen := st.seen ++ [prod.product_id],
                    products := st.products ++ [prod] }
        let revs := (fetch_reviews site.reviewServer
          (pyOptStr prod.bv_product_id) prod.product_id 3).reviews
        let st2 := if revs ≠ [] then { st1 with reviews := st1.reviews ++ revs }
          else st1
        sProductLoop site cap rest st2

/-- Translation of the per-brand loop of the Sephora main
(scrape_sephora.py lines 606 to 648): brands yielding no product URLs
are skipped; the global cap check after each brand breaks the loop. -/
def sBrandLoop (site : Site) (cap : Nat) : List String → SRunState → SRunState
  | [], st => st
  | b :: rest, st =>
    let urls := site.productUrls b
    if urls = [] then sBrandLoop site cap rest st
    else
      let st1 := sProductLoop site cap urls st
      if cap ≤ st1.seen.length then st1
      else sBrandLoop site cap rest st1

/-- Translation of the Sephora main (scrape_sephora.py lines 595 to 662):
a run starts with empty accumulators and an empty seen set (no persisted
state is read), and at the end the collected products and reviews are
written out whole, replacing any previous output file. -/
def main (site : Site) (cap : Nat) : SRunState :=
  sBrandLoop site cap site.brandUrls ⟨[], [], []⟩

end Sephora

namespace Ulta

/-- The brand slug brand_url.rstrip("/").split("/")[-1].lower()
(scrape_ulta.py line 555). -/
def brandSlug (u : String) : String :=
  Py.pyLower (String.mk
    (((u.toList.reverse.dropWhile (· = '/')).takeWhile (· ≠ '/')).reverse))

/-- External inputs of one Ulta run: the brand listing (the output of
get_brand_urls), the product links each brand page yields (the output of
get_product_urls_from_brand, deterministic for an unchanged site), the
blocked-signature probe consulted when a brand yields nothing, the
rendered content of each product page, and the review API. -/
structure Site where
  brandUrls : List String
  productUrls : String → List String
  deniedAfter : String → Bool
  pageFor : String → Page
  reviewServer : String → Nat → Option PRResponse

/-- Observable events of an Ulta run: a product page navigation, an
append of a batch of product rows to the products CSV (with whether a
header row was written), an append to the reviews CSV, and an append of
a slug to the completed-brands log. -/
inductive Event where
  | visitEntity (url : String)
  | flushProducts (batch : List UProductRecord) (header : Bool)
  | flushReviews (count : Nat)
  | markBrand (slug : String)
  deriving Repr

/-- The persisted state the Ulta scraper reads on start and appends to
during a run: the products CSV (with its existence flag, which controls
the header), the reviews CSV, and the completed-brand-slugs log. -/
structure Persisted where
  productsFile : List UProductRecord
  productsFileExists : Bool
  reviewsFile : List UReviewRecord
  reviewsFileExists : Bool
  brandLog : List String
  deriving Repr

/-- Full state of a running Ulta main: the seen product-id set plus the
persisted state. -/
structure RunState where
  seen : List String
  productsFile : List UProductRecord
  productsFileExists : Bool
  reviewsFile : List UReviewRecord
  reviewsFileExists : Bool
  brandLog : List String
  deriving Repr

/-- The initial seen set (scrape_ulta.py lines 513 to 551): the union of
the product ids found in the other ulta_products*.csv files and in the
products CSV itself, deduplicated as a Python set. -/
def seenInit (otherPids : List String) (fileRecs : List UProductRecord) :
    List String :=
  (otherPids ++ fileRecs.filterMap UProductRecord.product_id).foldl
    (fun acc x => Py.insertU x acc) []

/-- Translation of the per-product loop of the Ulta main (scrape_ulta.py
lines 604 to 636), accumulating brand_products and brand_reviews: the
global cap breaks the loop; a URL whose pimprod id is already seen is
skipped without a page visit; a page yielding no product id is skipped;
otherwise the id is added to the seen set, the record appended to the
brand batch, and reviews fetched. -/
def uProductLoop (site : Site) (cap : Nat) :
    List String → RunState → List UProductRecord → List UReviewRecord →
    List Event → RunState × List UProductRecord × List UReviewRecord × List Event
  | [], st, bp, br, evs => (st, bp, br, evs)
  | url :: rest, st, bp, br, evs =>
    if cap ≤ st.seen.length then (st, bp, br, evs)
    else
      let skip : Bool := match extract_product_id url with
        | some pid0 => decide (pid0 ∈ st.seen)
        | none => false
      if skip then uProductLoop site cap rest st bp br evs
      else
        let prod := scrape_product_page (site.pageFor url) url
        let evs1 := evs ++ [.visitEntity url]
        match prod.product_id with
        | none => uProductLoop site cap rest st bp br evs1
        | some pid =>
          if pid ∈ st.seen then uProductLoop site cap rest st bp br evs1
          else
            let st1 := { st with seen := st.seen ++ [pid] }
            let bp1 := bp ++ [prod]
            let revs := (fetch_reviews site.reviewServer (some pid) 300
              25).reviews
            let br1 := if revs ≠ [] then br ++ revs else br
            uProductLoop site cap rest st1 bp1 br1 evs1

/-- Translation of one iteration of the Ulta brand loop (scrape_ulta.py
lines 566 to 661), from the point where the brand is neither logged nor
cut off by the cap: fetch the product URLs (with the one blocked-retry
of lines 573 to 579, which on an unchanged deterministic site returns
the same list), give up and mark the brand done when none are found,
apply the skip-ahead sampling of the first 5 ids, otherwise run the
product loop, append the brand batches to the CSVs (header only when the
file did not yet exist), and mark the brand done. -/
def processBrand (site : Site) (cap : Nat) (st : RunState)
    (brandUrl : String) : RunState × List Event :=
  let slug := brandSlug brandUrl
  let urls0 := site.productUrls brandUrl
  let urls := if urls0 = [] ∧ site.deniedAfter brandUrl then
    site.productUrls brandUrl else urls0
  if urls = [] then
    ({ st with brandLog := st.brandLog ++ [slug] }, [.markBrand slug])
  else
    let firstPids := (urls.take 5).filterMap extract_product_id
    if firstPids ≠ [] ∧ ∀ p ∈ firstPids, p ∈ st.seen then
      ({ st with brandLog := st.brandLog ++ [slug] }, [.markBrand slug])
    else
      match uProductLoop site cap urls st [] [] [] with
      | (st1, bp, br, evs) =>
        let hdr := ¬ st1.productsFileExists
        let st2 := if ¬ bp.isEmpty then
            { st1 with productsFile := st1.productsFile ++ bp,
                       productsFileExists := true }
          else st1
        let evs2 := if ¬ bp.isEmpty then evs ++ [.flushProducts bp hdr] else evs
        let st3 := if br ≠ [] then
            { st2 with reviewsFile := st2.reviewsFile ++ br,
                       reviewsFileExists := true }
          else st2
        let evs3 := if br ≠ [] then evs2 ++ [.flushReviews br.length] else evs2
        ({ st3 with brandLog := st3.brandLog ++ [slug] },
          evs3 ++ [.markBrand slug])

/-- Translation of the Ulta brand loop (scrape_ulta.py lines 554 to 661):
brands whose slug is already in the completed log are skipped; the
global cap, checked before each brand, breaks the loop. -/
def uBrandLoop (site : Site) (cap : Nat) :
    List String → RunState → RunState × List Event
  | [], st => (st, [])
  | b :: rest, st =>
    if brandSlug b ∈ st.brandLog then uBrandLoop site cap rest st
    else if cap ≤ st.seen.length then (st, [])
    else
      match processBrand site cap st b with
      | (st1, evs) =>
        match uBrandLoop site cap rest st1 with
        | (st2, evs2) => (st2, evs ++ evs2)

/-- Translation of the Ulta main (scrape_ulta.py lines 509 to 667): the
seen set is initialized from all previously persisted product ids (the
other ulta_products*.csv files and the products CSV itself), the brand
log from the slug file, and the brand loop is run. -/
def main (site : Site) (cap : Nat) (otherPids : List String)
    (p : Persisted) : RunState × List Event :=
  uBrandLoop site cap site.brandUrls
    { seen := seenInit otherPids p.productsFile,
      productsFile := p.productsFile,
      productsFileExists := p.productsFileExists,
      reviewsFile := p.reviewsFile,
      reviewsFileExists := p.reviewsFileExists,
      brandLog := p.brandLog }

/-- The persisted part of a final run state. -/
def persistedOf (st : RunState) : Persisted :=
  { productsFile := st.productsFile,
    productsFileExists := st.productsFileExists,
    reviewsFile := st.reviewsFile,
    reviewsFileExists := st.reviewsFileExists,
    brandLog := st.brandLog }

/-- A sequence of Ulta runs against (possibly different) sites, each
reading the persisted state the previous run left behind. -/
def multiRun (otherPids : List String) :
    List (Site × Nat) → Persisted → Persisted
  | [], p => p
  | (site, cap) :: rest, p =>
    multiRun otherPids rest (persistedOf (main site cap otherPids p).1)

/-- The product batches appended to the products CSV, in order, as
recorded in the event trace. -/
def flushBatches (evs : List Event) : List (List UProductRecord) :=
  evs.filterMap fun e => match e with
    | .flushProducts b _ => some b
    | _ => none

/-- The header flags of the product flushes, in order. -/
def flushHeaders (evs : List Event) : List Bool :=
  evs.filterMap fun e => match e with
    | .flushProducts _ h => some h
    | _ => none

/-- Whether the event trace ever flushes more than one product record at
a time (the per-entity-flush reading of the spec requires this to be
false). -/
def hasMultiRecordFlush (evs : List Event) : Bool :=
  evs.any fun e => match e with
    | .flushProducts b _ => decide (2 ≤ b.length)
    | _ => false

end Ulta



/-- Demo Ulta site: one brand page listing two fresh products; all
product-page probes abstain and the review API is unreachable. -/
def c6SiteU : Ulta.Site :=
  { brandUrls := ["https://www.ulta.com/brand/brandone"],
    productUrls := fun _ =>
      ["https://www.ulta.com/p/x-pimprod1", "https://www.ulta.com/p/y-pimprod2"],
    deniedAfter := fun _ => false,
    pageFor := fun _ => c9PageU [] [],
    reviewServer := fun _ _ => none }

/-- Run state whose seen set already contains the two product ids of
c6SiteU (as a resumed run would after loading persisted output). -/
def c7State : Ulta.RunState :=
  ⟨["pimprod1", "pimprod2"], [], false, [], false, []⟩

/-- Demo Sephora site: one brand listing two id-less product URLs (no
P-number anywhere); all probes abstain. -/
def c10SiteS : Sephora.Site :=
  { brandUrls := ["https://www.sephora.com/brand/bee"],
    productUrls := fun _ =>
      ["https://www.sephora.com/product/alpha",
       "https://www.sephora.com/product/beta"],
    pageFor := fun _ => c9PageS [],
    reviewServer := fun _ _ => none }

/-- Demo Sephora site: one brand listing one product with id 123. -/
def c1SiteS : Sephora.Site :=
  { brandUrls := ["https://www.sephora.com/brand/bee"],
    productUrls := fun _ => ["https://www.sephora.com/product/x-P123"],
    pageFor := fun _ => c9PageS [],
    reviewServer := fun _ _ => none }



namespace Ulta

/-- The product ids of a list of persisted records (dropna). -/
def recordPids (l : List UProductRecord) : List String :=
  l.filterMap UProductRecord.product_id

/-- Dedup invariant of a running Ulta main, relating the seen set to the
persisted file and the pending brand batch: the seen set is
duplicate-free, the persisted ids followed by the pending batch ids are
duplicate-free, and the seen set holds exactly the other-file ids, the
persisted ids and the pending batch ids. -/
def Inv (otherPids : List String) (st : RunState) (bpPids : List String) :
    Prop :=
  st.seen.Nodup ∧
  (recordPids st.productsFile ++ bpPids).Nodup ∧
  ∀ x, x ∈ st.seen ↔
    (x ∈ otherPids ∨ x ∈ recordPids st.productsFile ∨ x ∈ bpPids)

end Ulta


namespace Py

theorem mem_splitFirstL {sep : Char} {l : List Char} {c : Char}
    (h : c ∈ splitFirstL sep l) : c ≠ sep := by
  simpa using List.mem_takeWhile_imp h

theorem splitFirstL_eq_self {sep : Char} {l : List Char}
    (h : ∀ c ∈ l, c ≠ sep) : splitFirstL sep l = l := by
  unfold splitFirstL
  rw [List.takeWhile_eq_self_iff]
  intro x hx
  simpa using h x hx

theorem dropWhile_self {p : α → Bool} (l : List α) :
    (l.dropWhile p).dropWhile p = l.dropWhile p := by
  induction l with
  | nil => simp
  | cons a t ih =>
    by_cases h : p a
    · simp [List.dropWhile_cons, h, ih]
    · simp [List.dropWhile_cons, h]

theorem head_dropWhile_false {p : α → Bool} :
    ∀ (l : List α) (a : α), (l.dropWhile p).head? = some a → p a = false := by
  intro l
  induction l with
  | nil => intro a h; simp at h
  | cons b t ih =>
    intro a h
    by_cases hb : p b
    · rw [List.dropWhile_cons_of_pos hb] at h
      exact ih a h
    · rw [List.dropWhile_cons_of_neg hb] at h
      simp at h
      subst h
      simpa using hb

theorem getLast?_dropWhile {p : α → Bool} :
    ∀ (l : List α), l.dropWhile p ≠ [] → (l.dropWhile p).getLast? = l.getLast? := by
  intro l
  induction l with
  | nil => intro h; simp at h
  | cons b t ih =>
    intro h
    by_cases hb : p b
    · rw [List.dropWhile_cons_of_pos hb] at h ⊢
      rcases List.eq_nil_or_concat t with ht | ⟨t', a, rfl⟩
      · subst ht; simp at h
      · rw [ih h]
        have e : b :: t'.concat a = (b :: t') ++ [a] := by simp
        rw [e, List.concat_eq_append, List.getLast?_concat, List.getLast?_concat]
    · rw [List.dropWhile_cons_of_neg hb]

theorem dropWhile_eq_self_of_head {p : α → Bool} (l : List α)
    (h : ∀ a, l.head? = some a → p a = false) : l.dropWhile p = l := by
  cases l with
  | nil => simp
  | cons a t =>
    have := h a (by simp)
    rw [List.dropWhile_cons_of_neg (by simp [this])]

/-- A list whose head and last element both fail pyIsSpace is fixed by
stripL. -/
theorem stripL_eq_self {l : List Char}
    (h1 : ∀ a, l.head? = some a → pyIsSpace a = false)
    (h2 : ∀ a, l.getLast? = some a → pyIsSpace a = false) : stripL l = l := by
  unfold stripL lstripL rstripL
  rw [dropWhile_eq_self_of_head l h1]
  rw [dropWhile_eq_self_of_head l.reverse (by simpa using h2)]
  simp

theorem head?_stripL_false {l : List Char} {a : Char}
    (h : (stripL l).head? = some a) : pyIsSpace a = false := by
  unfold stripL rstripL lstripL at h
  rw [List.head?_reverse] at h
  by_cases hne : (l.dropWhile pyIsSpace).reverse.dropWhile pyIsSpace = []
  · rw [hne] at h; simp at h
  · rw [getLast?_dropWhile _ hne] at h
    rw [List.getLast?_reverse] at h
    exact head_dropWhile_false l a h

theorem getLast?_stripL_false {l : List Char} {a : Char}
    (h : (stripL l).getLast? = some a) : pyIsSpace a = false := by
  unfold stripL rstripL lstripL at h
  rw [List.getLast?_reverse] at h
  exact head_dropWhile_false _ a h

/-- stripL is idempotent. -/
theorem stripL_self (l : List Char) : stripL (stripL l) = stripL l :=
  stripL_eq_self (fun _ h => head?_stripL_false h) (fun _ h => getLast?_stripL_false h)

theorem mem_stripL {l : List Char} {c : Char} (h : c ∈ stripL l) : c ∈ l := by
  unfold stripL rstripL lstripL at h
  have h1 := List.dropWhile_sublist (l := (l.dropWhile pyIsSpace).reverse) (p := pyIsSpace)
  have h2 := List.dropWhile_sublist (l := l) (p := pyIsSpace)
  have := (h1.reverse).subset (by simpa using h)
  exact h2.subset (by simpa using this)

/-- Characters of the stripped query-free part come from the input. -/
theorem mem_stripL_splitFirstL {u : List Char} {c : Char}
    (h : c ∈ stripL (splitFirstL '?' u)) : c ≠ '?' :=
  mem_splitFirstL (mem_stripL h)

theorem emptyString_isEmpty : "".isEmpty = true := rfl

theorem toList_mk (l : List Char) : (String.mk l).toList = l := rfl

theorem toList_append (a b : String) : (a ++ b).toList = a.toList ++ b.toList := rfl

theorem mk_append (a : String) (l : List Char) :
    String.mk (a.toList ++ l) = a ++ String.mk l := rfl

/-- Main lemma for the Link Normalizer: if the base URL starts with a
character that is neither whitespace, a slash, nor a question mark, and
contains no question mark at all, then normUrl is idempotent and its
output contains no question mark. -/
theorem normUrl_good (base u : String) (b : Char)
    (hb : base.toList.head? = some b)
    (hbs : pyIsSpace b = false) (hbsl : b ≠ '/')
    (hq : ∀ c ∈ base.toList, c ≠ '?') :
    normUrl base (normUrl base u) = normUrl base u ∧
    ∀ c ∈ (normUrl base u).toList, c ≠ '?' := by
  by_cases hu : u = ""
  · subst hu
    constructor
    · rfl
    · intro c hc
      simp [normUrl] at hc
  · have hbase_ne : base.toList ≠ [] := by
      intro h
      rw [h] at hb
      simp at hb
    set v := stripL (splitFirstL '?' u.toList) with hv
    have hnq : ∀ c ∈ v, c ≠ '?' := fun c hc => mem_stripL_splitFirstL (hv ▸ hc)
    have hone : normUrl base u =
        if v.head? = some '/' then base ++ String.mk v else String.mk v := by
      rw [normUrl, if_neg hu]
    by_cases hsl : v.head? = some '/'
    · -- the relative-URL branch: the result is base ++ v
      rw [hone, if_pos hsl]
      have hvne : v ≠ [] := by
        intro h
        rw [h] at hsl
        simp at hsl
      have htl : (base ++ String.mk v).toList = base.toList ++ v := rfl
      have hne2 : (base ++ String.mk v) ≠ "" := by
        intro h
        have := congrArg String.toList h
        rw [htl] at this
        simp at this
        exact hbase_ne this.1
      have hsplit : splitFirstL '?' (base.toList ++ v) = base.toList ++ v :=
        splitFirstL_eq_self (by
          intro c hc
          rcases List.mem_append.1 hc with h | h
          · exact hq _ h
          · exact hnq _ h)
      have hheadapp : (base.toList ++ v).head? = some b := by
        rw [List.head?_append, hb]
        rfl
      have hstrip : stripL (base.toList ++ v) = base.toList ++ v := by
        apply stripL_eq_self
        · intro a ha
          rw [hheadapp] at ha
          injection ha with ha
          rw [← ha]
          exact hbs
        · intro a ha
          rw [List.getLast?_append] at ha
          have hvs : v.getLast?.isSome := List.getLast?_isSome.2 hvne
          rcases Option.isSome_iff_exists.1 hvs with ⟨a', ha'⟩
          rw [ha'] at ha
          simp at ha
          subst ha
          exact getLast?_stripL_false (hv ▸ ha')
      constructor
      · rw [normUrl, if_neg hne2, htl, hsplit, hstrip]
        rw [if_neg (by rw [hheadapp]; intro h; injection h with h; exact hbsl h)]
        exact mk_append base v
      · intro c hc
        rw [htl] at hc
        rcases List.mem_append.1 hc with h | h
        · exact hq _ h
        · exact hnq _ h
    · -- the absolute-URL branch: the result is v itself
      rw [hone, if_neg hsl]
      constructor
      · by_cases hvn : v = []
        · rw [hvn]
          rfl
        · have hne2 : String.mk v ≠ "" := by
            intro h
            have := congrArg String.toList h
            simp [toList_mk] at this
            exact hvn this
          rw [normUrl, if_neg hne2, toList_mk]
          rw [splitFirstL_eq_self hnq, hv, stripL_self]
          rw [if_neg (hv ▸ hsl)]
      · intro c hc
        rw [toList_mk] at hc
        exact hnq _ hc

end Py

/-- Claim C8: the Link Normalizer (norm_url, in both scraper variants) is a
pure, idempotent function: applying it twice equals applying it once (an
already-normalized URL is returned unchanged), and its output never
contains a query string (no question mark occurs in it). -/
theorem c8_norm_url_idempotent_and_query_free (u : String) :
    (Ulta.norm_url (Ulta.norm_url u) = Ulta.norm_url u ∧
      ∀ c ∈ (Ulta.norm_url u).toList, c ≠ '?') ∧
    (Sephora.norm_url (Sephora.norm_url u) = Sephora.norm_url u ∧
      ∀ c ∈ (Sephora.norm_url u).toList, c ≠ '?') :=
  ⟨Py.normUrl_good Ulta.BASE u 'h' rfl (by decide) (by decide) (by decide),
   Py.normUrl_good Sephora.BASE u 'h' rfl (by decide) (by decide) (by decide)⟩


namespace Py

/-- Unfolding equation for one round of the scroll loop. -/
theorem scrollLoop_succ (accept : String → Option String)
    (pages : Nat → List String) (limit fuel round : Nat) (st : ScrollState) :
    scrollLoop accept pages limit (fuel + 1) round st =
      match collectAnchors accept limit (pages (round + 1)) st.productUrls st.seen with
      | Sum.inr urls => (.limitHit urls, round + 1)
      | Sum.inl (urls, seen) =>
        if urls.length = st.lastCount then
          if 3 ≤ st.stagnantRounds + 1 then
            (.stagnated ⟨urls, seen, st.lastCount, st.stagnantRounds + 1⟩, round + 1)
          else
            scrollLoop accept pages limit fuel (round + 1)
              ⟨urls, seen, st.lastCount, st.stagnantRounds + 1⟩
        else
          scrollLoop accept pages limit fuel (round + 1)
            ⟨urls, seen, urls.length, 0⟩ := rfl

/-- After a round processed an anchor list without early return, the seen
set absorbs the old seen set and every accepted link of that list. -/
theorem collectAnchors_inl_mem (accept : String → Option String) (limit : Nat) :
    ∀ (anchors urls seen u s : List String),
      collectAnchors accept limit anchors urls seen = Sum.inl (u, s) →
      (∀ x ∈ seen, x ∈ s) ∧
      ∀ href ∈ anchors, ∀ full, accept href = some full → full ∈ s := by
  intro anchors
  induction anchors with
  | nil =>
    intro urls seen u s h
    simp only [collectAnchors] at h
    injection h with h
    injection h with h1 h2
    subst h2
    exact ⟨fun x hx => hx, by simp⟩
  | cons href rest ih =>
    intro urls seen u s h
    simp only [collectAnchors] at h
    cases h1 : accept href with
    | none =>
      rw [h1] at h
      simp only [] at h
      obtain ⟨hsub, hall⟩ := ih urls seen u s h
      refine ⟨hsub, ?_⟩
      intro x hx full hacc
      rcases List.mem_cons.1 hx with rfl | hx
      · rw [h1] at hacc
        cases hacc
      · exact hall x hx full hacc
    | some full =>
      rw [h1] at h
      simp only [] at h
      by_cases hmem : full ∈ seen
      · rw [if_pos hmem] at h
        obtain ⟨hsub, hall⟩ := ih urls seen u s h
        refine ⟨hsub, ?_⟩
        intro x hx full' hacc
        rcases List.mem_cons.1 hx with rfl | hx
        · rw [h1] at hacc
          injection hacc with hacc
          subst hacc
          exact hsub _ hmem
        · exact hall x hx full' hacc
      · rw [if_neg hmem] at h
        by_cases hlim : limit ≤ (urls ++ [full]).length
        · rw [if_pos hlim] at h
          cases h
        · rw [if_neg hlim] at h
          obtain ⟨hsub, hall⟩ := ih _ _ u s h
          refine ⟨fun x hx => hsub _ (by simp [hx]), ?_⟩
          intro x hx full' hacc
          rcases List.mem_cons.1 hx with rfl | hx
          · rw [h1] at hacc
            injection hacc with hacc
            subst hacc
            exact hsub _ (by simp)
          · exact hall x hx full' hacc

/-- A round whose accepted links are all already seen changes nothing. -/
theorem collectAnchors_idem (accept : String → Option String) (limit : Nat) :
    ∀ (anchors urls seen : List String),
      (∀ href ∈ anchors, ∀ full, accept href = some full → full ∈ seen) →
      collectAnchors accept limit anchors urls seen = Sum.inl (urls, seen) := by
  intro anchors
  induction anchors with
  | nil => intro urls seen _; simp only [collectAnchors]
  | cons href rest ih =>
    intro urls seen h
    simp only [collectAnchors]
    cases h1 : accept href with
    | none =>
      simp only []
      exact ih urls seen fun x hx => h x (List.mem_cons_of_mem _ hx)
    | some full =>
      simp only []
      rw [if_pos (h href (List.mem_cons_self _ _) full h1)]
      exact ih urls seen fun x hx => h x (List.mem_cons_of_mem _ hx)

/-- Fuel decomposition: a run that exhausts its first a rounds continues
like a run of the remaining fuel from the intermediate state. -/
theorem scrollLoop_add (accept : String → Option String)
    (pages : Nat → List String) (limit : Nat) :
    ∀ (a b r : Nat) (st st' : ScrollState) (r' : Nat),
      scrollLoop accept pages limit a r st = (.ranOut st', r') →
      scrollLoop accept pages limit (a + b) r st =
        scrollLoop accept pages limit b r' st' := by
  intro a
  induction a with
  | zero =>
    intro b r st st' r' h
    simp only [scrollLoop] at h
    injection h with h1 h2
    injection h1 with h1
    subst h1
    subst h2
    rw [Nat.zero_add]
  | succ a ih =>
    intro b r st st' r' h
    rw [Nat.succ_add]
    rw [scrollLoop_succ] at h ⊢
    cases hc : collectAnchors accept limit (pages (r + 1)) st.productUrls st.seen with
    | inr urls =>
      rw [hc] at h
      simp only [] at h
      cases h
    | inl p =>
      obtain ⟨urls, seen⟩ := p
      rw [hc] at h
      simp only [] at h ⊢
      by_cases he : urls.length = st.lastCount
      · rw [if_pos he] at h ⊢
        by_cases hs : 3 ≤ st.stagnantRounds + 1
        · rw [if_pos hs] at h
          cases h
        · rw [if_neg hs] at h ⊢
          exact ih b (r + 1) _ st' r' h
      · rw [if_neg he] at h ⊢
        exact ih b (r + 1) _ st' r' h

/-- Post-condition of a run that exhausted its fuel: the final round count
adds the fuel, everything the final round's page offered is in the seen
set, and when the final round found new links last_count records the
collected length. -/
theorem scrollLoop_ranOut_post (accept : String → Option String)
    (pages : Nat → List String) (limit : Nat) :
    ∀ (fuel r : Nat) (st st' : ScrollState) (r' : Nat),
      1 ≤ fuel →
      scrollLoop accept pages limit fuel r st = (.ranOut st', r') →
      r' = r + fuel ∧
      (∀ href ∈ pages r', ∀ full, accept href = some full → full ∈ st'.seen) ∧
      (st'.stagnantRounds = 0 → st'.lastCount = st'.productUrls.length) := by
  intro fuel
  induction fuel with
  | zero => intro r st st' r' h; omega
  | succ a ih =>
    intro r st st' r' _ h
    rw [scrollLoop_succ] at h
    cases hc : collectAnchors accept limit (pages (r + 1)) st.productUrls st.seen with
    | inr urls =>
      rw [hc] at h
      simp only [] at h
      cases h
    | inl p =>
      obtain ⟨urls, seen⟩ := p
      rw [hc] at h
      simp only [] at h
      by_cases he : urls.length = st.lastCount
      · rw [if_pos he] at h
        by_cases hs : 3 ≤ st.stagnantRounds + 1
        · rw [if_pos hs] at h
          cases h
        · rw [if_neg hs] at h
          cases a with
          | zero =>
            simp only [scrollLoop] at h
            injection h with h1 h2
            injection h1 with h1
            subst h1
            subst h2
            refine ⟨rfl, ?_, ?_⟩
            · exact (collectAnchors_inl_mem accept limit _ _ _ _ _ hc).2
            · intro h0
              simp at h0
          | succ a' =>
            obtain ⟨hr, hmem, hlc⟩ := ih (r + 1) _ st' r' (by omega) h
            exact ⟨by omega, hmem, hlc⟩
      · rw [if_neg he] at h
        cases a with
        | zero =>
          simp only [scrollLoop] at h
          injection h with h1 h2
          injection h1 with h1
          subst h1
          subst h2
          refine ⟨rfl, ?_, ?_⟩
          · exact (collectAnchors_inl_mem accept limit _ _ _ _ _ hc).2
          · intro _
            rfl
        | succ a' =>
          obtain ⟨hr, hmem, hlc⟩ := ih (r + 1) _ st' r' (by omega) h
          exact ⟨by omega, hmem, hlc⟩

/-- General stagnation theorem: if three rounds of the scroll loop run out
normally leaving a state that just found new links and is still below the
limit, and rounds 4, 5 and 6 see the same page content as round 3, then
the full loop (any fuel of at least 6) stops by stagnation after round 6
with exactly the links collected by round 3. -/
theorem scrollLoop_stagnation (accept : String → Option String)
    (pages : Nat → List String) (limit maxScrolls : Nat) (st3 : ScrollState)
    (h4 : pages 4 = pages 3) (h5 : pages 5 = pages 3) (h6 : pages 6 = pages 3)
    (hrun : scrollLoop accept pages limit 3 0 ⟨[], [], 0, 0⟩ = (.ranOut st3, 3))
    (hstag : st3.stagnantRounds = 0)
    (hms : 6 ≤ maxScrolls) :
    scrollLoop accept pages limit maxScrolls 0 ⟨[], [], 0, 0⟩ =
      (.stagnated ⟨st3.productUrls, st3.seen, st3.lastCount, 3⟩, 6) := by
  obtain ⟨-, hmem, hlc⟩ :=
    scrollLoop_ranOut_post accept pages limit 3 0 _ st3 3 (by omega) hrun
  have hlc3 : st3.lastCount = st3.productUrls.length := hlc hstag
  obtain ⟨b, rfl⟩ : ∃ b, maxScrolls = 3 + b := ⟨maxScrolls - 3, by omega⟩
  rw [scrollLoop_add accept pages limit 3 b 0 _ st3 3 hrun]
  obtain ⟨k, rfl⟩ : ∃ k, b = k + 3 := ⟨b - 3, by omega⟩
  have hidem4 : collectAnchors accept limit (pages 4) st3.productUrls st3.seen =
      Sum.inl (st3.productUrls, st3.seen) := by
    rw [h4]
    exact collectAnchors_idem accept limit _ _ _ hmem
  -- round 4
  show scrollLoop accept pages limit (k + 2 + 1) 3 st3 = _
  rw [scrollLoop_succ, hidem4]
  simp only []
  rw [if_pos hlc3.symm, if_neg (by rw [hstag]; omega : ¬ 3 ≤ st3.stagnantRounds + 1)]
  -- round 5
  rw [scrollLoop_succ]
  simp only
  rw [show (3:Nat) + 1 + 1 = 5 from rfl, h5, ← h4, hidem4]
  simp only []
  rw [if_pos hlc3.symm, if_neg (by rw [hstag]; omega : ¬ 3 ≤ st3.stagnantRounds + 1 + 1)]
  -- round 6
  rw [scrollLoop_succ]
  simp only
  rw [show (3:Nat) + 1 + 1 + 1 = 6 from rfl, h6, ← h4, hidem4]
  simp only []
  rw [if_pos hlc3.symm, if_pos (by rw [hstag] : 3 ≤ st3.stagnantRounds + 1 + 1 + 1)]
  rw [hstag]

end Py


/-- Claim C3: for every rendered-listing source (modelled by the per-round
anchor contents pages), the Grid Materializer of both scrapers tracks the
unique-link count after each reveal round and stops as soon as the count
has been unchanged for 3 consecutive rounds, returning the links
collected so far even if below the requested limit.  Concretely: if three
rounds run out normally leaving a state whose final round found new links
(stagnation counter 0) and whose collected count is below the limit, and
reveal rounds 4, 5 and 6 return the same link set as round 3, then the
loop stops after round 6 (3 stagnant rounds) with exactly the links
collected by round 3. -/
theorem c3_stagnation_stops_after_round_6
    (pagesU pagesS : Nat → List String) (limitU limitS maxU maxS : Nat)
    (stU stS : Py.ScrollState)
    (h4U : pagesU 4 = pagesU 3) (h5U : pagesU 5 = pagesU 3)
    (h6U : pagesU 6 = pagesU 3)
    (hrunU : Py.scrollLoop Ulta.acceptProductLink pagesU limitU 3 0
        ⟨[], [], 0, 0⟩ = (.ranOut stU, 3))
    (hstagU : stU.stagnantRounds = 0)
    (hltU : stU.productUrls.length < limitU)
    (hmaxU : 6 ≤ maxU)
    (h4S : pagesS 4 = pagesS 3) (h5S : pagesS 5 = pagesS 3)
    (h6S : pagesS 6 = pagesS 3)
    (hrunS : Py.scrollLoop Sephora.acceptProductLink pagesS limitS 3 0
        ⟨[], [], 0, 0⟩ = (.ranOut stS, 3))
    (hstagS : stS.stagnantRounds = 0)
    (hltS : stS.productUrls.length < limitS)
    (hmaxS : 6 ≤ maxS) :
    (Ulta.scroll_and_collect_product_links pagesU limitU maxU =
        (.stagnated ⟨stU.productUrls, stU.seen, stU.lastCount, 3⟩, 6) ∧
      (Ulta.scroll_and_collect_product_links pagesU limitU maxU).1.links =
        stU.productUrls ∧
      stU.productUrls.length < limitU) ∧
    (Sephora.scroll_and_collect_product_links pagesS limitS maxS =
        (.stagnated ⟨stS.productUrls, stS.seen, stS.lastCount, 3⟩, 6) ∧
      (Sephora.scroll_and_collect_product_links pagesS limitS maxS).1.links =
        stS.productUrls ∧
      stS.productUrls.length < limitS) := by
  have hU := Py.scrollLoop_stagnation Ulta.acceptProductLink pagesU limitU maxU
    stU h4U h5U h6U hrunU hstagU hmaxU
  have hS := Py.scrollLoop_stagnation Sephora.acceptProductLink pagesS limitS maxS
    stS h4S h5S h6S hrunS hstagS hmaxS
  refine ⟨⟨hU, ?_, hltU⟩, ⟨hS, ?_, hltS⟩⟩
  · rw [Ulta.scroll_and_collect_product_links, hU]
    rfl
  · rw [Sephora.scroll_and_collect_product_links, hS]
    rfl

/-- Concrete run of the stagnation scenario: on c3Pages, where rounds 4,
5 and 6 repeat round 3, both collectors stop after round 6 with the three
links collected by round 3, although the limit 50 was not reached.  The
max_scrolls values 40 and 20 are the MAX_BRAND_SCROLLS constants of the
two sources. -/
theorem c3_stagnation_stops_after_round_6_witness :
    (Py.scrollLoop Ulta.acceptProductLink c3Pages 50 3 0 ⟨[], [], 0, 0⟩ =
        (.ranOut c3StU, 3) ∧
      c3StU.stagnantRounds = 0 ∧ c3StU.productUrls.length < 50 ∧
      Py.scrollLoop Sephora.acceptProductLink c3Pages 50 3 0 ⟨[], [], 0, 0⟩ =
        (.ranOut c3StS, 3) ∧
      c3StS.stagnantRounds = 0 ∧ c3StS.productUrls.length < 50) ∧
    (Ulta.scroll_and_collect_product_links c3Pages 50 40 =
        (.stagnated ⟨c3StU.productUrls, c3StU.seen, c3StU.lastCount, 3⟩, 6) ∧
      (Ulta.scroll_and_collect_product_links c3Pages 50 40).1.links =
        c3StU.productUrls ∧
      c3StU.productUrls.length < 50) ∧
    (Sephora.scroll_and_collect_product_links c3Pages 50 20 =
        (.stagnated ⟨c3StS.productUrls, c3StS.seen, c3StS.lastCount, 3⟩, 6) ∧
      (Sephora.scroll_and_collect_product_links c3Pages 50 20).1.links =
        c3StS.productUrls ∧
      c3StS.productUrls.length < 50) :=
  ⟨⟨by decide, by decide, by decide, by decide, by decide, by decide⟩,
    c3_stagnation_stops_after_round_6 c3Pages c3Pages 50 50 40 20 c3StU c3StS
      rfl rfl rfl (by decide) (by decide) (by decide) (by decide)
      rfl rfl rfl (by decide) (by decide) (by decide) (by decide)⟩

namespace Ulta

/-- Trace characterization of the PowerReviews page loop: requests are
issued at consecutive page offsets page * pageSize, and every request
except possibly the last was preceded by a page that produced records and
left the accumulated count strictly below both the reported total and the
cap. -/
theorem fetchLoop_trace (server : Nat → Option PRResponse) (pid : String)
    (maxReviews pageSize : Nat) :
    ∀ (fuel page : Nat) (acc : List UReviewRecord) (tr : List Py.PageVisit),
      ∃ new : List Py.PageVisit,
        (fetchLoop server pid maxReviews pageSize fuel page acc tr).trace =
          tr ++ new ∧
        new.map Py.PageVisit.offset =
          (List.range' page new.length).map (· * pageSize) ∧
        ∀ v ∈ new.dropLast,
          v.got ≠ 0 ∧ v.accAfter < v.totalReported ∧ v.accAfter < maxReviews := by
  intro fuel
  induction fuel with
  | zero =>
    intro page acc tr
    exact ⟨[], by simp [fetchLoop], by simp, by simp⟩
  | succ fuel ih =>
    intro page acc tr
    simp only [fetchLoop]
    cases hs : server (page * pageSize) with
    | none =>
      exact ⟨[⟨page * pageSize, 0, 0, acc.length⟩], by simp, by simp, by simp⟩
    | some r =>
      simp only []
      by_cases hst : r.status ≠ 200
      · rw [if_pos hst]
        exact ⟨[⟨page * pageSize, 0, 0, acc.length⟩], by simp, by simp, by simp⟩
      · rw [if_neg hst]
        cases hres : r.results with
        | nil =>
          exact ⟨[⟨page * pageSize, 0, 0, acc.length⟩], by simp, by simp, by simp⟩
        | cons res0 rest =>
          simp only []
          cases hrev : res0.reviews with
          | nil =>
            exact ⟨[⟨page * pageSize, 0, 0, acc.length⟩], by simp, by simp, by simp⟩
          | cons r0 rrest =>
            simp only []
            by_cases hstop :
                r.totalResults ≤
                    (acc ++ (r0 :: rrest).map (toReviewRecord pid)).length ∨
                  maxReviews ≤
                    (acc ++ (r0 :: rrest).map (toReviewRecord pid)).length
            · rw [if_pos hstop]
              refine ⟨[⟨page * pageSize, (r0 :: rrest).length, r.totalResults,
                (acc ++ (r0 :: rrest).map (toReviewRecord pid)).length⟩],
                by simp, by simp, by simp⟩
            · rw [if_neg hstop]
              obtain ⟨new', h1, h2, h3⟩ := ih (page + 1)
                (acc ++ (r0 :: rrest).map (toReviewRecord pid))
                (tr ++ [⟨page * pageSize, (r0 :: rrest).length, r.totalResults,
                  (acc ++ (r0 :: rrest).map (toReviewRecord pid)).length⟩])
              refine ⟨⟨page * pageSize, (r0 :: rrest).length, r.totalResults,
                (acc ++ (r0 :: rrest).map (toReviewRecord pid)).length⟩ :: new',
                ?_, ?_, ?_⟩
              · rw [h1]
                simp
              · simp only [List.map_cons, List.length_cons, List.range'_succ,
                  h2]
              · intro v hv
                have hmem :
                    v = (⟨page * pageSize, (r0 :: rrest).length, r.totalResults,
                      (acc ++ (r0 :: rrest).map (toReviewRecord pid)).length⟩ :
                        Py.PageVisit) ∨ v ∈ new'.dropLast := by
                  cases new' with
                  | nil => simp at hv
                  | cons w ws =>
                    rw [List.dropLast_cons₂] at hv
                    rcases List.mem_cons.1 hv with rfl | hv
                    · exact Or.inl rfl
                    · exact Or.inr hv
                rcases hmem with rfl | hv'
                · refine ⟨by simp, ?_, ?_⟩
                  · simp only [not_or, not_le] at hstop
                    exact hstop.1
                  · simp only [not_or, not_le] at hstop
                    exact hstop.2
                · exact h3 v hv'

end Ulta

namespace Sephora

/-- Trace characterization of the Bazaarvoice page loop: requests are
issued at strictly increasing offsets (each offset is the accumulated
count so far), and every request except possibly the last was preceded by
a page that produced records and left the accumulated count strictly
below the reported total. -/
theorem sFetchLoop_trace (server : Nat → Option BVResponse)
    (pn : Option String) :
    ∀ (fuel : Nat) (acc : List SReviewRecord) (tr : List Py.PageVisit),
      ∃ new : List Py.PageVisit,
        (sFetchLoop server pn fuel acc tr).trace = tr ++ new ∧
        (∀ v, new.head? = some v → v.offset = acc.length) ∧
        List.Chain' (fun a b => a.offset < b.offset) new ∧
        ∀ v ∈ new.dropLast, v.got ≠ 0 ∧ v.accAfter < v.totalReported := by
  intro fuel
  induction fuel with
  | zero =>
    intro acc tr
    exact ⟨[], by simp [sFetchLoop], by simp, by simp, by simp⟩
  | succ fuel ih =>
    intro acc tr
    simp only [sFetchLoop]
    cases hs : server acc.length with
    | none =>
      exact ⟨[⟨acc.length, 0, 0, acc.length⟩], by simp, by simp, by simp, by simp⟩
    | some r =>
      simp only []
      by_cases hst : r.status ≠ 200
      · rw [if_pos hst]
        exact ⟨[⟨acc.length, 0, 0, acc.length⟩], by simp, by simp, by simp, by simp⟩
      · rw [if_neg hst]
        cases hres : r.results with
        | nil =>
          exact ⟨[⟨acc.length, 0, 0, acc.length⟩], by simp, by simp, by simp, by simp⟩
        | cons r0 rrest =>
          simp only []
          by_cases hstop : r.totalResults ≤
              (acc ++ (r0 :: rrest).map (toReviewRecord pn)).length
          · rw [if_pos hstop]
            refine ⟨[⟨acc.length, (r0 :: rrest).length, r.totalResults,
              (acc ++ (r0 :: rrest).map (toReviewRecord pn)).length⟩],
              by simp, by simp, by simp, by simp⟩
          · rw [if_neg hstop]
            obtain ⟨new', h1, h2, h3, h4⟩ := ih
              (acc ++ (r0 :: rrest).map (toReviewRecord pn))
              (tr ++ [⟨acc.length, (r0 :: rrest).length, r.totalResults,
                (acc ++ (r0 :: rrest).map (toReviewRecord pn)).length⟩])
            refine ⟨⟨acc.length, (r0 :: rrest).length, r.totalResults,
              (acc ++ (r0 :: rrest).map (toReviewRecord pn)).length⟩ :: new',
              ?_, ?_, ?_, ?_⟩
            · rw [h1]
              simp
            · intro v hv
              injection hv with hv
              rw [← hv]
            · rw [List.chain'_cons']
              refine ⟨?_, h3⟩
              intro w hw
              rw [h2 w hw]
              simp only []
              rw [List.length_append, List.length_map]
              simp
            · intro v hv
              have hmem :
                  v = (⟨acc.length, (r0 :: rrest).length, r.totalResults,
                    (acc ++ (r0 :: rrest).map (toReviewRecord pn)).length⟩ :
                      Py.PageVisit) ∨ v ∈ new'.dropLast := by
                cases new' with
                | nil => simp at hv
                | cons w ws =>
                  rw [List.dropLast_cons₂] at hv
                  rcases List.mem_cons.1 hv with rfl | hv
                  · exact Or.inl rfl
                  · exact Or.inr hv
              rcases hmem with rfl | hv'
              · exact ⟨by simp, by simpa using Nat.lt_of_not_le hstop⟩
              · exact h4 v hv'

end Sephora

/-- Claim C4: for every entity, the Review Ingestor requests pages at
increasing offsets and terminates at the first of a zero-result page, the
accumulated count reaching the server-reported total, or the accumulated
count reaching the configured cap: every issued request except the last
was preceded by a page that contributed records and left the accumulated
count strictly below both bounds (so no request is ever issued after one
of the stop conditions held), and with a stub reporting total 45 and
pages of 20 results the Ingestor issues exactly 3 page requests
(returning 20, 20 and 5 results) and returns 45 records, in both the
Ulta (PowerReviews) and the Sephora (Bazaarvoice) variant. -/
theorem c4_pagination_termination :
    (∀ (server : String → Nat → Option Ulta.PRResponse) (pid : Option String)
        (cap size : Nat),
      (Ulta.fetch_reviews server pid cap size).trace.map Py.PageVisit.offset =
        (List.range' 0
          (Ulta.fetch_reviews server pid cap size).trace.length).map
            (· * size) ∧
      ∀ v ∈ (Ulta.fetch_reviews server pid cap size).trace.dropLast,
        v.got ≠ 0 ∧ v.accAfter < v.totalReported ∧ v.accAfter < cap) ∧
    (∀ (server : String → Nat → Option Sephora.BVResponse)
        (bv pn : Option String) (mp : Nat),
      List.Chain' (fun a b => a.offset < b.offset)
        (Sephora.fetch_reviews server bv pn mp).trace ∧
      ∀ v ∈ (Sephora.fetch_reviews server bv pn mp).trace.dropLast,
        v.got ≠ 0 ∧ v.accAfter < v.totalReported) ∧
    ((Ulta.fetch_reviews c4StubU (some "pimprod2015889") 300 20).reviews.length
        = 45 ∧
      (Ulta.fetch_reviews c4StubU (some "pimprod2015889") 300 20).trace.map
        Py.PageVisit.got = [20, 20, 5] ∧
      (Ulta.fetch_reviews c4StubU (some "pimprod2015889") 300 20).trace.map
        Py.PageVisit.offset = [0, 20, 40]) ∧
    ((Sephora.fetch_reviews c4StubS (some "250421") (some "250421")
        3).reviews.length = 45 ∧
      (Sephora.fetch_reviews c4StubS (some "250421") (some "250421")
        3).trace.map Py.PageVisit.got = [20, 20, 5] ∧
      (Sephora.fetch_reviews c4StubS (some "250421") (some "250421")
        3).trace.map Py.PageVisit.offset = [0, 20, 40]) := by
  refine ⟨?_, ?_, ⟨by decide, by decide, by decide⟩,
    ⟨by decide, by decide, by decide⟩⟩
  · intro server pid cap size
    rw [Ulta.fetch_reviews]
    by_cases hp : ¬ Py.truthyS pid
    · rw [if_pos hp]
      exact ⟨by simp, by simp⟩
    · rw [if_neg hp]
      simp only []
      obtain ⟨new, h1, h2, h3⟩ := Ulta.fetchLoop_trace (server (pid.getD ""))
        (pid.getD "") cap size ((cap + size - 1) / size) 0 [] []
      rw [List.nil_append] at h1
      rw [h1]
      exact ⟨h2, h3⟩
  · intro server bv pn mp
    rw [Sephora.fetch_reviews]
    by_cases hb : ¬ Py.truthyS bv
    · rw [if_pos hb]
      exact ⟨by simp, by simp⟩
    · rw [if_neg hb]
      obtain ⟨new, h1, h2, h3, h4⟩ := Sephora.sFetchLoop_trace
        (server (Sephora.bvRequestProductId pn)) pn mp [] []
      rw [List.nil_append] at h1
      rw [h1]
      exact ⟨h3, h4⟩

/-- Concrete instantiation of C4: in the stub run, the first request (at
offset 0, 20 results, total 45, 20 accumulated) is not the last one, and
the theorem yields that it produced records and stayed strictly below
both the total and the cap. -/
theorem c4_pagination_termination_witness :
    (⟨0, 20, 45, 20⟩ : Py.PageVisit) ∈
      (Ulta.fetch_reviews c4StubU (some "pimprod2015889") 300
        20).trace.dropLast ∧
    ((⟨0, 20, 45, 20⟩ : Py.PageVisit).got ≠ 0 ∧
      (⟨0, 20, 45, 20⟩ : Py.PageVisit).accAfter <
        (⟨0, 20, 45, 20⟩ : Py.PageVisit).totalReported ∧
      (⟨0, 20, 45, 20⟩ : Py.PageVisit).accAfter < 300) :=
  ⟨by decide,
    (c4_pagination_termination.1 c4StubU (some "pimprod2015889") 300 20).2
      ⟨0, 20, 45, 20⟩ (by decide)⟩

/-- Claim C5: with a per-entity review cap of 30 and the stub reporting
total 45 with pages of 20 results, the Ulta Review Ingestor returns
exactly 30 review records and stops after issuing 2 page requests (at
offsets 0 and 20); in general, the list it returns never contains more
than max_reviews records, for any server, entity and configuration. -/
theorem c5_cap_enforcement :
    ((Ulta.fetch_reviews c4StubU (some "pimprod2015889") 30 20).reviews.length
        = 30 ∧
      (Ulta.fetch_reviews c4StubU (some "pimprod2015889") 30 20).trace.map
        Py.PageVisit.offset = [0, 20]) ∧
    ∀ (server : String → Nat → Option Ulta.PRResponse) (pid : Option String)
      (cap size : Nat),
      (Ulta.fetch_reviews server pid cap size).reviews.length ≤ cap := by
  refine ⟨⟨by decide, by decide⟩, ?_⟩
  intro server pid cap size
  rw [Ulta.fetch_reviews]
  by_cases hp : ¬ Py.truthyS pid
  · rw [if_pos hp]
    simp
  · rw [if_neg hp]
    simp only [List.length_take]
    exact Nat.min_le_left _ _

/-- Claim C2, counterexample: on a page exposing the product name both
via JSON-LD structured data (value A) and via a text/CSS selector (value
B), the Sephora Field Extractor returns B, not A: its declared order
evaluates CSS selectors before the JSON-LD strategy. -/
theorem c2_counterexample_sephora_css_beats_structured :
    (Sephora.scrape_product_page (c2PageS "A" "B")
        "https://www.sephora.com/product/x-P123").product_name = .vstr "B" ∧
      Py.PyVal.vstr "B" ≠ Py.PyVal.vstr "A" :=
  ⟨rfl, by simp⟩

/-- Claim C2, amended: each variant evaluates its extraction strategies
in its own declared order and the first strategy yielding a non-empty
value wins.  For a page exposing the product name both via structured
data (value a) and via a text/CSS selector (value b), the Ulta variant
(declared order: JSON-LD, CSS, meta tags, raw-source regex) returns a,
while the Sephora variant (declared order: live-DOM probe, CSS, meta
tags, JSON-LD) returns b. -/
theorem c2_declared_order_first_nonempty_wins (a b : String)
    (ha : a ≠ "") (hb : b ≠ "") :
    (Ulta.scrape_product_page (c2PageU a b)
        "https://www.ulta.com/p/x-pimprod1").product_name = .vstr a ∧
    (Sephora.scrape_product_page (c2PageS a b)
        "https://www.sephora.com/product/x-P123").product_name = .vstr b := by
  have ha2 : a.isEmpty = false := by
    rw [Bool.eq_false_iff]
    intro h
    exact ha ((String.isEmpty_iff a).1 h)
  have hb2 : b.isEmpty = false := by
    rw [Bool.eq_false_iff]
    intro h
    exact hb ((String.isEmpty_iff b).1 h)
  constructor
  · simp [Ulta.scrape_product_page, c2PageU, productLdName, Ulta.processLd,
      Py.ldUnwrap, Py.pyGetD, Py.dictGetD, Py.pyEqStr, Py.pyTruthy,
      Ulta.priceFromOffers, Ulta.ldRatingCategory, Py.cssLoopReset,
      Py.cssLoopKeep, Ulta.nameSelectors, Ulta.brandSelectors,
      Ulta.priceSelectors, Ulta.nameOk, Ulta.priceOk, List.lookup,
      Option.getD, ha2, hb2]
  · simp [Sephora.scrape_product_page, c2PageS, productLdName,
      Sephora.processLdS, Py.ldUnwrap, Py.pyGetD, Py.dictGetD, Py.pyEqStr,
      Py.pyTruthy, Sephora.sPriceFromOffers, Sephora.sLdRatingCategory,
      Sephora.ratingFromAllLd, Py.cssLoopReset, Py.cssLoopKeep,
      Sephora.nameSelectors, Sephora.brandSelectors, Sephora.priceSelectors,
      Sephora.ratingSelectors, Sephora.ratingLoop,
      Sephora.extract_bv_product_id, List.lookup, Option.getD,
      Py.emptyString_isEmpty, ha2, hb2]

/-- Concrete instantiation of the amended C2 at a = A, b = B. -/
theorem c2_declared_order_first_nonempty_wins_witness :
    ("A" : String) ≠ "" ∧ ("B" : String) ≠ "" ∧
    ((Ulta.scrape_product_page (c2PageU "A" "B")
        "https://www.ulta.com/p/x-pimprod1").product_name = .vstr "A" ∧
      (Sephora.scrape_product_page (c2PageS "A" "B")
        "https://www.sephora.com/product/x-P123").product_name = .vstr "B") :=
  ⟨by decide, by decide,
    c2_declared_order_first_nonempty_wins "A" "B" (by decide) (by decide)⟩

/-- Claim C9, counterexample: the Sephora variant takes the last
breadcrumb item without any home filtering, so on a page whose
breadcrumb trail is Makeup, Home it returns the trailing Home segment as
the category, although the last non-home segment is Makeup; the Ulta
live-DOM fallback likewise returns Home when every parsed breadcrumb
item is home. -/
theorem c9_counterexample_trailing_home_returned :
    (Sephora.scrape_product_page (c9PageS ["Makeup", "Home"])
        "https://www.sephora.com/product/x-P123").category = .vstr "Home" ∧
    (["Makeup", "Home"].filter
        (fun x => decide (Py.pyLower x ≠ "home"))).getLast? = some "Makeup" ∧
    Py.pyLower "Home" = "home" ∧
    (Ulta.scrape_product_page (c9PageU ["Home"] ["Home"])
        "https://www.ulta.com/p/x-pimprod1").category = .vstr "Home" :=
  ⟨rfl, rfl, rfl, rfl⟩

/-- Claim C9, amended: on a product page without structured data whose
other field probes abstain, the Ulta variant resolves the category as
the last parsed breadcrumb segment whose text is not home
(case-insensitive) when one exists (so a trailing Home segment is not
returned on that path), and falls back to the unfiltered, stripped last
live-DOM breadcrumb item when every parsed segment is home; the Sephora
variant always takes the last live-DOM breadcrumb item with no home
filtering. -/
theorem c9_category_last_breadcrumb :
    (∀ (items domItems : List String) (t : String),
      (items.filter (fun x => decide (Py.pyLower x ≠ "home"))).getLast? =
        some t →
      t ≠ "" →
      (Ulta.scrape_product_page (c9PageU items domItems)
          "https://www.ulta.com/p/x-pimprod1").category = .vstr t ∧
        Py.pyLower t ≠ "home") ∧
    (∀ (items domItems : List String) (t : String),
      (items.filter (fun x => decide (Py.pyLower x ≠ "home"))).getLast? =
        none →
      domItems.getLast? = some t →
      (Ulta.scrape_product_page (c9PageU items domItems)
          "https://www.ulta.com/p/x-pimprod1").category =
        .vstr (Py.pyStrip t)) ∧
    (∀ (domItems : List String) (t : String),
      domItems.getLast? = some t →
      (Sephora.scrape_product_page (c9PageS domItems)
          "https://www.sephora.com/product/x-P123").category = .vstr t) := by
  refine ⟨?_, ?_, ?_⟩
  · intro items domItems t hlast ht
    have htmem : t ∈ items.filter (fun x => decide (Py.pyLower x ≠ "home")) :=
      List.mem_of_getLast?_eq_some hlast
    have hthome : Py.pyLower t ≠ "home" := by simpa using List.of_mem_filter htmem
    have hitems : items.isEmpty = false := by
      cases items with
      | nil => simp at htmem
      | cons x xs => rfl
    have ht2 : t.isEmpty = false := by
      rw [Bool.eq_false_iff]
      intro h
      exact ht ((String.isEmpty_iff t).1 h)
    refine ⟨?_, hthome⟩
    simp at hlast
    simp [Ulta.scrape_product_page, c9PageU, Py.cssLoopReset, Py.cssLoopKeep,
      Ulta.nameSelectors, Ulta.brandSelectors, Ulta.priceSelectors,
      Ulta.nameOk, Ulta.priceOk, Py.pyTruthy, hitems, hlast, ht2]
  · intro items domItems t hnone hlast
    simp at hnone
    have hfind : List.find? (fun s => !decide (Py.pyLower s = "home"))
        items.reverse = none := by
      rw [List.find?_eq_none]
      intro x hx
      simp [hnone x (by simpa using hx)]
    cases items with
    | nil =>
      simp [Ulta.scrape_product_page, c9PageU, Py.cssLoopReset,
        Py.cssLoopKeep, Ulta.nameSelectors, Ulta.brandSelectors,
        Ulta.priceSelectors, Ulta.nameOk, Ulta.priceOk, Py.pyTruthy, hlast]
    | cons y ys =>
      have hy : Py.pyLower y = "home" := hnone y (List.mem_cons_self y ys)
      have hfind2 : List.find? (fun s => !decide (Py.pyLower s = "home"))
          ys.reverse = none := by
        rw [List.find?_eq_none]
        intro x hx
        simp [hnone x (List.mem_cons_of_mem y (List.mem_reverse.1 hx))]
      simp [Ulta.scrape_product_page, c9PageU, Py.cssLoopReset,
        Py.cssLoopKeep, Ulta.nameSelectors, Ulta.brandSelectors,
        Ulta.priceSelectors, Ulta.nameOk, Ulta.priceOk, Py.pyTruthy,
        hfind2, hy, hlast]
  · intro domItems t hlast
    simp [Sephora.scrape_product_page, c9PageS, Py.cssLoopReset,
      Py.cssLoopKeep, Sephora.nameSelectors, Sephora.brandSelectors,
      Sephora.priceSelectors, Sephora.ratingSelectors, Sephora.ratingLoop,
      Sephora.extract_bv_product_id, Sephora.ratingFromAllLd, Py.pyTruthy,
      Py.emptyString_isEmpty, hlast]

/-- Concrete instantiation of the amended C9: breadcrumb trails Home,
Makeup, Lipstick (Ulta, parsed) and Makeup, Home (Sephora, live DOM). -/
theorem c9_category_last_breadcrumb_witness :
    ((["Home", "Makeup", "Lipstick"].filter
        (fun x => decide (Py.pyLower x ≠ "home"))).getLast? =
          some "Lipstick" ∧
      ("Lipstick" : String) ≠ "" ∧
      (Ulta.scrape_product_page (c9PageU ["Home", "Makeup", "Lipstick"] [])
          "https://www.ulta.com/p/x-pimprod1").category = .vstr "Lipstick" ∧
      Py.pyLower "Lipstick" ≠ "home") ∧
    (["Makeup", "Home"].getLast? = some "Home" ∧
      (Sephora.scrape_product_page (c9PageS ["Makeup", "Home"])
          "https://www.sephora.com/product/x-P123").category = .vstr "Home") :=
  ⟨⟨by decide, by decide,
    (c9_category_last_breadcrumb.1 ["Home", "Makeup", "Lipstick"] []
      "Lipstick" (by decide) (by decide))⟩,
   ⟨by decide,
    c9_category_last_breadcrumb.2.2 ["Makeup", "Home"] "Home" (by decide)⟩⟩

/-- Claim C7: for every group (brand) whose first 5 sampled entity links
all yield product ids already present in the seen-id set, the
orchestrator marks the group complete (appends its slug to the
completed-groups log, with the mark event as the only event) without
visiting any entity page of that group and without persisting any
record. -/
theorem c7_skip_ahead_marks_complete_without_visits (site : Ulta.Site)
    (cap : Nat) (st : Ulta.RunState) (brandUrl : String)
    (hurls : site.productUrls brandUrl ≠ [])
    (hsample : ∀ u ∈ (site.productUrls brandUrl).take 5,
      ∃ p, Ulta.extract_product_id u = some p ∧ p ∈ st.seen) :
    (Ulta.processBrand site cap st brandUrl).1.brandLog =
      st.brandLog ++ [Ulta.brandSlug brandUrl] ∧
    (Ulta.processBrand site cap st brandUrl).2 =
      [.markBrand (Ulta.brandSlug brandUrl)] ∧
    (Ulta.processBrand site cap st brandUrl).1.productsFile =
      st.productsFile := by
  have hcond : (site.productUrls brandUrl).take 5 ≠ [] := by
    intro h
    rcases List.take_eq_nil_iff.1 h with h5 | h5
    · cases h5
    · exact hurls h5
  obtain ⟨u0, hu0⟩ : ∃ u, u ∈ (site.productUrls brandUrl).take 5 := by
    cases hh : (site.productUrls brandUrl).take 5 with
    | nil => exact absurd hh hcond
    | cons a t => exact ⟨a, hh ▸ List.mem_cons_self a t⟩
  obtain ⟨p0, hp0, _⟩ := hsample u0 hu0
  have hne : ((site.productUrls brandUrl).take 5).filterMap
      Ulta.extract_product_id ≠ [] :=
    List.ne_nil_of_mem (List.mem_filterMap.2 ⟨u0, hu0, hp0⟩)
  have hall : ∀ p ∈ ((site.productUrls brandUrl).take 5).filterMap
      Ulta.extract_product_id, p ∈ st.seen := by
    intro p hp
    obtain ⟨u, hu, hpu⟩ := List.mem_filterMap.1 hp
    obtain ⟨p2, hp2, hp2s⟩ := hsample u hu
    rw [hpu] at hp2
    injection hp2 with hp2
    rw [hp2]
    exact hp2s
  simp only [Ulta.processBrand, ite_self]
  rw [if_neg hurls, if_pos ⟨hne, hall⟩]
  exact ⟨rfl, rfl, rfl⟩

/-- Concrete instantiation of C7: on c6SiteU with both product ids
already seen, the brand is marked complete with no entity visit. -/
theorem c7_skip_ahead_marks_complete_without_visits_witness :
    (c6SiteU.productUrls "https://www.ulta.com/brand/brandone" ≠ []) ∧
    ((Ulta.processBrand c6SiteU 5000 c7State
        "https://www.ulta.com/brand/brandone").1.brandLog =
      c7State.brandLog ++ [Ulta.brandSlug "https://www.ulta.com/brand/brandone"] ∧
    (Ulta.processBrand c6SiteU 5000 c7State
        "https://www.ulta.com/brand/brandone").2 =
      [.markBrand (Ulta.brandSlug "https://www.ulta.com/brand/brandone")] ∧
    (Ulta.processBrand c6SiteU 5000 c7State
        "https://www.ulta.com/brand/brandone").1.productsFile =
      c7State.productsFile) :=
  ⟨by decide,
    c7_skip_ahead_marks_complete_without_visits c6SiteU 5000 c7State
      "https://www.ulta.com/brand/brandone" (by decide)
      (by
        intro u hu
        simp only [c6SiteU] at hu
        simp at hu
        rcases hu with rfl | rfl
        · exact ⟨"pimprod1", rfl, by decide⟩
        · exact ⟨"pimprod2", rfl, by decide⟩)⟩

namespace Sephora

/-- Invariant of the Sephora product loop: the seen set is duplicate-free,
every recorded product id is in it, and the recorded ids are
duplicate-free. -/
theorem sProductLoop_nodup (site : Site) (cap : Nat) :
    ∀ (urls : List String) (st : SRunState),
      st.seen.Nodup →
      (∀ r ∈ st.products, r.product_id ∈ st.seen) →
      (st.products.map SProductRecord.product_id).Nodup →
      (sProductLoop site cap urls st).seen.Nodup ∧
      (∀ r ∈ (sProductLoop site cap urls st).products,
        r.product_id ∈ (sProductLoop site cap urls st).seen) ∧
      ((sProductLoop site cap urls st).products.map
        SProductRecord.product_id).Nodup := by
  intro urls
  induction urls with
  | nil =>
    intro st h1 h2 h3
    simp only [sProductLoop]
    exact ⟨h1, h2, h3⟩
  | cons url rest ih =>
    intro st h1 h2 h3
    simp only [sProductLoop]
    by_cases hcap : cap ≤ st.seen.length
    · rw [if_pos hcap]
      exact ⟨h1, h2, h3⟩
    · rw [if_neg hcap]
      by_cases hmem :
          (scrape_product_page (site.pageFor url) url).product_id ∈ st.seen
      · rw [if_pos hmem]
        exact ih st h1 h2 h3
      · rw [if_neg hmem]
        by_cases hrev : (fetch_reviews site.reviewServer
            (pyOptStr (scrape_product_page (site.pageFor url)
              url).bv_product_id)
            (scrape_product_page (site.pageFor url) url).product_id
            3).reviews ≠ []
        all_goals {
          first
          | rw [if_pos hrev]
          | rw [if_neg hrev]
          apply ih
          · exact List.Nodup.append h1 (List.nodup_singleton _)
              (by simpa using hmem)
          · intro r hr
            rcases List.mem_append.1 hr with hr | hr
            · exact List.mem_append_left _ (h2 r hr)
            · simp at hr
              rw [hr]
              simp
          · rw [List.map_append]
            apply List.Nodup.append h3 (by simp)
            intro x hx hx2
            simp at hx2
            obtain ⟨r, hr, hrid⟩ := List.mem_map.1 hx
            apply hmem
            rw [← hx2, ← hrid]
            exact h2 r hr
        }

/-- Every Sephora run produces a duplicate-free list of recorded product
ids (None counting as an id of its own). -/
theorem sBrandLoop_nodup (site : Site) (cap : Nat) :
    ∀ (brands : List String) (st : SRunState),
      st.seen.Nodup →
      (∀ r ∈ st.products, r.product_id ∈ st.seen) →
      (st.products.map SProductRecord.product_id).Nodup →
      ((sBrandLoop site cap brands st).products.map
        SProductRecord.product_id).Nodup := by
  intro brands
  induction brands with
  | nil =>
    intro st _ _ h3
    exact h3
  | cons b rest ih =>
    intro st h1 h2 h3
    simp only [sBrandLoop]
    by_cases hurls : site.productUrls b = []
    · rw [if_pos hurls]
      exact ih st h1 h2 h3
    · rw [if_neg hurls]
      obtain ⟨g1, g2, g3⟩ :=
        sProductLoop_nodup site cap (site.productUrls b) st h1 h2 h3
      by_cases hcap : cap ≤ (sProductLoop site cap (site.productUrls b)
          st).seen.length
      · rw [if_pos hcap]
        exact g3
      · rw [if_neg hcap]
        exact ih _ g1 g2 g3

/-- The recorded product ids of any Sephora run are duplicate-free. -/
theorem main_products_nodup (site : Site) (cap : Nat) :
    ((main site cap).products.map SProductRecord.product_id).Nodup :=
  sBrandLoop_nodup site cap site.brandUrls ⟨[], [], []⟩
    (by simp) (by simp) (by simp)

end Sephora

/-- Claim C10: in the Sephora variant, a product URL yielding no
extractable entity id (no P-digits match) is still appended with a
missing product_id self, and the missing marker None is inserted into the
seen-id set; consequently the recorded ids of any run are duplicate-free
with at most one None among them, and on a site offering two id-less
products only the first is persisted while the second is silently
skipped as a duplicate: c10SiteS lists two id-less URLs, yet the run
records exactly the first one, with product_id None and None in the seen
set. -/
theorem c10_idless_product_dedups_on_none :
    (∀ (site : Sephora.Site) (cap : Nat),
      ((Sephora.main site cap).products.map
        Sephora.SProductRecord.product_id).Nodup) ∧
    c10SiteS.productUrls "https://www.sephora.com/brand/bee" =
      ["https://www.sephora.com/product/alpha",
       "https://www.sephora.com/product/beta"] ∧
    (Sephora.main c10SiteS 5000).products.map
      Sephora.SProductRecord.product_id = [none] ∧
    (Sephora.main c10SiteS 5000).products.map
      Sephora.SProductRecord.product_url =
      ["https://www.sephora.com/product/alpha"] ∧
    (Sephora.main c10SiteS 5000).seen = [none] :=
  ⟨Sephora.main_products_nodup, rfl, rfl, rfl, rfl⟩

namespace Py

theorem mem_insertU {x y : String} {xs : List String} :
    x ∈ insertU y xs ↔ x ∈ xs ∨ x = y := by
  unfold insertU
  by_cases h : y ∈ xs
  · rw [if_pos h]
    constructor
    · exact Or.inl
    · rintro (hx | rfl)
      · exact hx
      · exact h
  · rw [if_neg h]
    simp

theorem nodup_insertU {y : String} {xs : List String} (h : xs.Nodup) :
    (insertU y xs).Nodup := by
  unfold insertU
  by_cases hy : y ∈ xs
  · rwa [if_pos hy]
  · rw [if_neg hy]
    apply List.Nodup.append h (List.nodup_singleton y)
    intro a ha hay
    simp at hay
    rw [hay] at ha
    exact hy ha

theorem mem_foldl_insertU :
    ∀ (l acc : List String) (x : String),
      x ∈ l.foldl (fun a y => insertU y a) acc ↔ x ∈ acc ∨ x ∈ l := by
  intro l
  induction l with
  | nil => intro acc x; simp
  | cons y t ih =>
    intro acc x
    rw [List.foldl_cons, ih, mem_insertU, List.mem_cons]
    tauto

theorem nodup_foldl_insertU :
    ∀ (l acc : List String), acc.Nodup →
      (l.foldl (fun a y => insertU y a) acc).Nodup := by
  intro l
  induction l with
  | nil => intro acc h; exact h
  | cons y t ih =>
    intro acc h
    rw [List.foldl_cons]
    exact ih _ (nodup_insertU h)

end Py

namespace Ulta

theorem seenInit_mem (otherPids : List String) (file : List UProductRecord)
    (x : String) :
    x ∈ seenInit otherPids file ↔
      x ∈ otherPids ∨ x ∈ recordPids file := by
  unfold seenInit
  rw [Py.mem_foldl_insertU]
  simp [recordPids]

theorem seenInit_nodup (otherPids : List String)
    (file : List UProductRecord) : (seenInit otherPids file).Nodup :=
  Py.nodup_foldl_insertU _ _ (by simp)

/-- Two duplicate-free lists with the same members have the same
length. -/
theorem length_eq_of_nodup_mem_iff {l1 l2 : List String}
    (h1 : l1.Nodup) (h2 : l2.Nodup) (h : ∀ x, x ∈ l1 ↔ x ∈ l2) :
    l1.length = l2.length := by
  rw [← List.toFinset_card_of_nodup h1, ← List.toFinset_card_of_nodup h2]
  congr 1
  ext x
  simpa using h x

end Ulta

namespace Ulta

/-- Specification of the Ulta product loop: it preserves the dedup
invariant (with the pending brand batch extended in lock-step with the
seen set), leaves the persisted files and the brand log untouched, only
grows the seen set, and emits no flush events. -/
theorem uProductLoop_spec (site : Site) (cap : Nat)
    (otherPids : List String) :
    ∀ (urls : List String) (st : RunState) (bp : List UProductRecord)
      (br : List UReviewRecord) (evs : List Event),
      Inv otherPids st (recordPids bp) →
      Inv otherPids (uProductLoop site cap urls st bp br evs).1
        (recordPids (uProductLoop site cap urls st bp br evs).2.1) ∧
      (uProductLoop site cap urls st bp br evs).1.productsFile =
        st.productsFile ∧
      (uProductLoop site cap urls st bp br evs).1.productsFileExists =
        st.productsFileExists ∧
      (uProductLoop site cap urls st bp br evs).1.reviewsFile =
        st.reviewsFile ∧
      (uProductLoop site cap urls st bp br evs).1.reviewsFileExists =
        st.reviewsFileExists ∧
      (uProductLoop site cap urls st bp br evs).1.brandLog = st.brandLog ∧
      (∀ x ∈ st.seen, x ∈ (uProductLoop site cap urls st bp br evs).1.seen) ∧
      st.seen.length ≤
        (uProductLoop site cap urls st bp br evs).1.seen.length ∧
      flushBatches (uProductLoop site cap urls st bp br evs).2.2.2 =
        flushBatches evs ∧
      flushHeaders (uProductLoop site cap urls st bp br evs).2.2.2 =
        flushHeaders evs := by
  intro urls
  induction urls with
  | nil =>
    intro st bp br evs hInv
    exact ⟨hInv, rfl, rfl, rfl, rfl, rfl, fun x hx => hx, le_refl _, rfl, rfl⟩
  | cons url rest ih =>
    intro st bp br evs hInv
    simp only [uProductLoop]
    by_cases hcap : cap ≤ st.seen.length
    · rw [if_pos hcap]
      exact ⟨hInv, rfl, rfl, rfl, rfl, rfl, fun x hx => hx, le_refl _, rfl, rfl⟩
    · rw [if_neg hcap]
      by_cases hskip : (match extract_product_id url with
        | some pid0 => decide (pid0 ∈ st.seen)
        | none => false) = true
      · rw [if_pos hskip]
        exact ih st bp br evs hInv
      · rw [if_neg hskip]
        have hfbv : ∀ evs2 : List Event,
            flushBatches (evs2 ++ [.visitEntity url]) = flushBatches evs2 := by
          intro evs2
          rw [flushBatches, List.filterMap_append]
          simp [flushBatches]
        have hfhv : ∀ evs2 : List Event,
            flushHeaders (evs2 ++ [.visitEntity url]) = flushHeaders evs2 := by
          intro evs2
          rw [flushHeaders, List.filterMap_append]
          simp [flushHeaders]
        cases hp : (scrape_product_page (site.pageFor url) url).product_id with
        | none =>
          obtain ⟨g1, g2, g3, g4, g5, g6, g7, g8, g9, g10⟩ :=
            ih st bp br (evs ++ [.visitEntity url]) hInv
          exact ⟨g1, g2, g3, g4, g5, g6, g7, g8,
            by rw [g9, hfbv], by rw [g10, hfhv]⟩
        | some pid =>
          simp only []
          by_cases hmem : pid ∈ st.seen
          · rw [if_pos hmem]
            obtain ⟨g1, g2, g3, g4, g5, g6, g7, g8, g9, g10⟩ :=
              ih st bp br (evs ++ [.visitEntity url]) hInv
            exact ⟨g1, g2, g3, g4, g5, g6, g7, g8,
              by rw [g9, hfbv], by rw [g10, hfhv]⟩
          · rw [if_neg hmem]
            have hInv1 : Inv otherPids { st with seen := st.seen ++ [pid] }
                (recordPids
                  (bp ++ [scrape_product_page (site.pageFor url) url])) := by
              obtain ⟨hn1, hn2, hiff⟩ := hInv
              have hrp : recordPids
                  (bp ++ [scrape_product_page (site.pageFor url) url]) =
                  recordPids bp ++ [pid] := by
                rw [recordPids, List.filterMap_append]
                simp [recordPids, hp]
              refine ⟨?_, ?_, ?_⟩
              · apply List.Nodup.append hn1 (List.nodup_singleton pid)
                intro a ha hay
                simp at hay
                rw [hay] at ha
                exact hmem ha
              · rw [hrp, ← List.append_assoc]
                apply List.Nodup.append hn2 (List.nodup_singleton pid)
                intro a ha hay
                simp at hay
                subst hay
                apply hmem
                apply (hiff a).2
                rcases List.mem_append.1 ha with h | h
                · exact Or.inr (Or.inl h)
                · exact Or.inr (Or.inr h)
              · intro x
                rw [hrp]
                constructor
                · intro hx
                  rcases List.mem_append.1 hx with hx | hx
                  · rcases (hiff x).1 hx with h | h | h
                    · exact Or.inl h
                    · exact Or.inr (Or.inl h)
                    · exact Or.inr (Or.inr (List.mem_append_left _ h))
                  · simp at hx
                    subst hx
                    exact Or.inr (Or.inr (List.mem_append_right _ (by simp)))
                · rintro (hx | hx | hx)
                  · exact List.mem_append_left _ ((hiff x).2 (Or.inl hx))
                  · exact List.mem_append_left _
                      ((hiff x).2 (Or.inr (Or.inl hx)))
                  · rcases List.mem_append.1 hx with h | h
                    · exact List.mem_append_left _
                        ((hiff x).2 (Or.inr (Or.inr h)))
                    · simp at h
                      subst h
                      exact List.mem_append_right _ (by simp)
            obtain ⟨g1, g2, g3, g4, g5, g6, g7, g8, g9, g10⟩ :=
              ih _ _ _ _ hInv1
            refine ⟨g1, g2, g3, g4, g5, g6, ?_, ?_,
              by rw [g9, hfbv], by rw [g10, hfhv]⟩
            · intro x hx
              exact g7 x (List.mem_append_left _ hx)
            · calc st.seen.length ≤ (st.seen ++ [pid]).length := by simp
                _ ≤ _ := g8

end Ulta

namespace Ulta

/-- Specification of one brand iteration: the dedup invariant is
preserved (with an empty pending batch), the brand slug is appended to
the completed log, the products file grows by exactly the flushed
batches recorded in the events, the seen set only grows, and when the
products file already existed no flush writes a header row. -/
theorem processBrand_spec (site : Site) (cap : Nat)
    (otherPids : List String) (st : RunState) (brandUrl : String)
    (hInv : Inv otherPids st []) :
    Inv otherPids (processBrand site cap st brandUrl).1 [] ∧
    (processBrand site cap st brandUrl).1.brandLog =
      st.brandLog ++ [brandSlug brandUrl] ∧
    (processBrand site cap st brandUrl).1.productsFile =
      st.productsFile ++
        (flushBatches (processBrand site cap st brandUrl).2).flatten ∧
    (∀ x ∈ st.seen, x ∈ (processBrand site cap st brandUrl).1.seen) ∧
    st.seen.length ≤ (processBrand site cap st brandUrl).1.seen.length ∧
    (st.productsFileExists = true →
      (processBrand site cap st brandUrl).1.productsFileExists = true ∧
      ∀ h ∈ flushHeaders (processBrand site cap st brandUrl).2, h = false) := by
  simp only [processBrand, ite_self]
  by_cases hurls : site.productUrls brandUrl = []
  · rw [if_pos hurls]
    refine ⟨hInv, rfl, ?_, fun x hx => hx, le_refl _, ?_⟩
    · simp [flushBatches]
    · intro hex
      exact ⟨hex, by simp [flushHeaders]⟩
  · rw [if_neg hurls]
    by_cases hskip :
        ((site.productUrls brandUrl).take 5).filterMap extract_product_id
          ≠ [] ∧
        ∀ p ∈ ((site.productUrls brandUrl).take 5).filterMap
          extract_product_id, p ∈ st.seen
    · rw [if_pos hskip]
      refine ⟨hInv, rfl, ?_, fun x hx => hx, le_refl _, ?_⟩
      · simp [flushBatches]
      · intro hex
        exact ⟨hex, by simp [flushHeaders]⟩
    · rw [if_neg hskip]
      obtain ⟨g1, g2, g3, g4, g5, g6, g7, g8, g9, g10⟩ :=
        uProductLoop_spec site cap otherPids (site.productUrls brandUrl)
          st [] [] [] (by simpa [recordPids] using hInv)
      cases hr : uProductLoop site cap (site.productUrls brandUrl) st [] [] []
        with
      | mk st1 rest =>
        obtain ⟨bp, br, evs⟩ := rest
        rw [hr] at g1 g2 g3 g4 g5 g6 g7 g8 g9 g10
        simp only [] at g1 g2 g3 g4 g5 g6 g7 g8 g9 g10
        simp only []
        have hfb : ∀ (l : List Event) (b : List UProductRecord) (h : Bool),
            flushBatches (l ++ [.flushProducts b h]) = flushBatches l ++ [b] := by
          intro l b h
          rw [flushBatches, List.filterMap_append]
          simp [flushBatches]
        have hfh : ∀ (l : List Event) (b : List UProductRecord) (h : Bool),
            flushHeaders (l ++ [.flushProducts b h]) = flushHeaders l ++ [h] := by
          intro l b h
          rw [flushHeaders, List.filterMap_append]
          simp [flushHeaders]
        have hfbr : ∀ (l : List Event) (n : Nat),
            flushBatches (l ++ [.flushReviews n]) = flushBatches l := by
          intro l n
          rw [flushBatches, List.filterMap_append]
          simp [flushBatches]
        have hfhr : ∀ (l : List Event) (n : Nat),
            flushHeaders (l ++ [.flushReviews n]) = flushHeaders l := by
          intro l n
          rw [flushHeaders, List.filterMap_append]
          simp [flushHeaders]
        have hfbm : ∀ (l : List Event) (s : String),
            flushBatches (l ++ [.markBrand s]) = flushBatches l := by
          intro l s
          rw [flushBatches, List.filterMap_append]
          simp [flushBatches]
        have hfhm : ∀ (l : List Event) (s : String),
            flushHeaders (l ++ [.markBrand s]) = flushHeaders l := by
          intro l s
          rw [flushHeaders, List.filterMap_append]
          simp [flushHeaders]
        have hfb0 : flushBatches evs = [] := by
          rw [g9]
          rfl
        have hfh0 : flushHeaders evs = [] := by
          rw [g10]
          rfl
        by_cases hbp : bp.isEmpty = true
        · have hc1 : ¬ ¬ bp.isEmpty = true := fun hc => hc hbp
          rw [if_neg hc1, if_neg hc1]
          have hbpnil : bp = [] := List.isEmpty_iff.1 hbp
          by_cases hbr : br ≠ []
          · rw [if_pos hbr, if_pos hbr]
            refine ⟨?_, ?_, ?_, ?_, ?_, ?_⟩
            · refine ⟨g1.1, ?_, ?_⟩
              · have := g1.2.1
                rwa [hbpnil] at this
              · intro x
                have := g1.2.2 x
                rw [hbpnil] at this
                simpa [recordPids] using this
            · rw [g6]
            · rw [g2, hfbm, hfbr, hfb0]
              simp
            · exact g7
            · exact g8
            · intro hex
              refine ⟨g3.trans hex, ?_⟩
              rw [hfhm, hfhr, hfh0]
              simp
          · rw [if_neg hbr, if_neg hbr]
            refine ⟨?_, ?_, ?_, ?_, ?_, ?_⟩
            · refine ⟨g1.1, ?_, ?_⟩
              · have := g1.2.1
                rwa [hbpnil] at this
              · intro x
                have := g1.2.2 x
                rw [hbpnil] at this
                simpa [recordPids] using this
            · rw [g6]
            · rw [g2, hfbm, hfb0]
              simp
            · exact g7
            · exact g8
            · intro hex
              refine ⟨g3.trans hex, ?_⟩
              rw [hfhm, hfh0]
              simp
        · rw [if_pos hbp, if_pos hbp]
          have hInv2 : Inv otherPids
              { st1 with productsFile := st1.productsFile ++ bp,
                         productsFileExists := true } [] := by
            refine ⟨g1.1, ?_, ?_⟩
            · have := g1.2.1
              rw [List.append_nil]
              rw [recordPids, List.filterMap_append]
              exact this
            · intro x
              have := g1.2.2 x
              constructor
              · intro hx
                rcases (this.1 hx) with h | h | h
                · exact Or.inl h
                · exact Or.inr (Or.inl (by
                    rw [recordPids, List.filterMap_append]
                    exact List.mem_append_left _ h))
                · exact Or.inr (Or.inl (by
                    rw [recordPids, List.filterMap_append]
                    exact List.mem_append_right _ h))
              · rintro (hx | hx | hx)
                · exact this.2 (Or.inl hx)
                · rw [recordPids, List.filterMap_append] at hx
                  rcases List.mem_append.1 hx with h | h
                  · exact this.2 (Or.inr (Or.inl h))
                  · exact this.2 (Or.inr (Or.inr h))
                · cases hx
          by_cases hbr : br ≠ []
          · rw [if_pos hbr, if_pos hbr]
            refine ⟨hInv2, ?_, ?_, ?_, ?_, ?_⟩
            · rw [g6]
            · rw [g2, hfbm, hfbr, hfb, hfb0]
              simp
            · exact g7
            · exact g8
            · intro hex
              refine ⟨rfl, ?_⟩
              rw [hfhm, hfhr, hfh, hfh0]
              intro h hmem
              simp at hmem
              rw [hmem, g3, hex]
              simp
          · rw [if_neg hbr, if_neg hbr]
            refine ⟨hInv2, ?_, ?_, ?_, ?_, ?_⟩
            · rw [g6]
            · rw [g2, hfbm, hfb, hfb0]
              simp
            · exact g7
            · exact g8
            · intro hex
              refine ⟨rfl, ?_⟩
              rw [hfhm, hfh, hfh0]
              intro h hmem
              simp at hmem
              rw [hmem, g3, hex]
              simp

end Ulta

namespace Ulta

/-- Specification of the Ulta brand loop: the dedup invariant is
preserved, the products file grows by exactly the flushed batches, the
brand log and the seen set only grow, at the end either every listed
brand is logged or the global cap has been reached, and when the
products file already existed no flush writes a header row. -/
theorem uBrandLoop_spec (site : Site) (cap : Nat) (otherPids : List String) :
    ∀ (brands : List String) (st : RunState),
      Inv otherPids st [] →
      Inv otherPids (uBrandLoop site cap brands st).1 [] ∧
      (uBrandLoop site cap brands st).1.productsFile =
        st.productsFile ++
          (flushBatches (uBrandLoop site cap brands st).2).flatten ∧
      (∀ s ∈ st.brandLog, s ∈ (uBrandLoop site cap brands st).1.brandLog) ∧
      (∀ x ∈ st.seen, x ∈ (uBrandLoop site cap brands st).1.seen) ∧
      st.seen.length ≤ (uBrandLoop site cap brands st).1.seen.length ∧
      ((∀ b ∈ brands, brandSlug b ∈ (uBrandLoop site cap brands st).1.brandLog) ∨
        cap ≤ (uBrandLoop site cap brands st).1.seen.length) ∧
      (st.productsFileExists = true →
        (uBrandLoop site cap brands st).1.productsFileExists = true ∧
        ∀ h ∈ flushHeaders (uBrandLoop site cap brands st).2, h = false) := by
  intro brands
  induction brands with
  | nil =>
    intro st hInv
    refine ⟨hInv, by simp [uBrandLoop, flushBatches], fun s hs => hs,
      fun x hx => hx, le_refl _, Or.inl (by simp), ?_⟩
    intro hex
    exact ⟨by simpa [uBrandLoop] using hex, by simp [uBrandLoop, flushHeaders]⟩
  | cons b rest ih =>
    intro st hInv
    simp only [uBrandLoop]
    by_cases hlog : brandSlug b ∈ st.brandLog
    · rw [if_pos hlog]
      obtain ⟨k1, k2, k3, k4, k5, k6, k7⟩ := ih st hInv
      refine ⟨k1, k2, k3, k4, k5, ?_, k7⟩
      rcases k6 with k6 | k6
      · refine Or.inl ?_
        intro b2 hb2
        rcases List.mem_cons.1 hb2 with rfl | hb2
        · exact k3 _ hlog
        · exact k6 b2 hb2
      · exact Or.inr k6
    · rw [if_neg hlog]
      by_cases hcap : cap ≤ st.seen.length
      · rw [if_pos hcap]
        refine ⟨hInv, by simp [flushBatches], fun s hs => hs, fun x hx => hx,
          le_refl _, Or.inr hcap, ?_⟩
        intro hex
        exact ⟨hex, by simp [flushHeaders]⟩
      · rw [if_neg hcap]
        obtain ⟨p1, p2, p3, p4, p5, p6⟩ :=
          processBrand_spec site cap otherPids st b hInv
        cases hpb : processBrand site cap st b with
        | mk st1 evs1 =>
          rw [hpb] at p1 p2 p3 p4 p5 p6
          simp only [] at p1 p2 p3 p4 p5 p6
          obtain ⟨k1, k2, k3, k4, k5, k6, k7⟩ := ih st1 p1
          cases hbl : uBrandLoop site cap rest st1 with
          | mk st2 evs2 =>
            rw [hbl] at k1 k2 k3 k4 k5 k6 k7
            simp only [] at k1 k2 k3 k4 k5 k6 k7
            have hfb2 : flushBatches (evs1 ++ evs2) =
                flushBatches evs1 ++ flushBatches evs2 := by
              rw [flushBatches, List.filterMap_append]
              rfl
            have hfh2 : flushHeaders (evs1 ++ evs2) =
                flushHeaders evs1 ++ flushHeaders evs2 := by
              rw [flushHeaders, List.filterMap_append]
              rfl
            refine ⟨k1, ?_, ?_, ?_, ?_, ?_, ?_⟩
            · rw [hfb2, List.flatten_append, k2, p3, List.append_assoc]
            · intro s hs
              apply k3
              rw [p2]
              exact List.mem_append_left _ hs
            · intro x hx
              exact k4 x (p4 x hx)
            · exact le_trans p5 k5
            · rcases k6 with k6 | k6
              · refine Or.inl ?_
                intro b2 hb2
                rcases List.mem_cons.1 hb2 with rfl | hb2
                · apply k3
                  rw [p2]
                  exact List.mem_append_right _ (by simp)
                · exact k6 b2 hb2
              · exact Or.inr k6
            · intro hex
              obtain ⟨pe1, pe2⟩ := p6 hex
              obtain ⟨ke1, ke2⟩ := k7 pe1
              refine ⟨ke1, ?_⟩
              intro h hmem
              rw [hfh2] at hmem
              rcases List.mem_append.1 hmem with h2 | h2
              · exact pe2 h h2
              · exact ke2 h h2

/-- A brand loop in which every listed brand is either already logged or
cut off by the cap changes nothing and emits no events. -/
theorem uBrandLoop_skip_all (site : Site) (cap : Nat) :
    ∀ (brands : List String) (st : RunState),
      (∀ b ∈ brands, brandSlug b ∈ st.brandLog ∨ cap ≤ st.seen.length) →
      uBrandLoop site cap brands st = (st, []) := by
  intro brands
  induction brands with
  | nil => intro st _; rfl
  | cons b rest ih =>
    intro st h
    simp only [uBrandLoop]
    by_cases hlog : brandSlug b ∈ st.brandLog
    · rw [if_pos hlog]
      exact ih st fun b2 hb2 => h b2 (List.mem_cons_of_mem b hb2)
    · rw [if_neg hlog]
      rcases h b (List.mem_cons_self b rest) with hb | hb
      · exact absurd hb hlog
      · rw [if_pos hb]

end Ulta

namespace Ulta

theorem flushBatches_append (a b : List Event) :
    flushBatches (a ++ b) = flushBatches a ++ flushBatches b := by
  rw [flushBatches, List.filterMap_append]
  rfl

/-- Every list of flushed batches decomposes at any cut point of the
event trace: the batches flushed by the first n events sit unchanged at
the front. -/
theorem flushBatches_take (evs : List Event) (n : Nat) :
    ∃ rest, flushBatches evs = flushBatches (evs.take n) ++ rest := by
  refine ⟨flushBatches (evs.drop n), ?_⟩
  conv_lhs => rw [← List.take_append_drop n evs]
  exact flushBatches_append _ _

/-- The initial run state of an Ulta main satisfies the dedup invariant
whenever the persisted ids carry no duplicates. -/
theorem Inv_init (otherPids : List String) (p : Persisted)
    (hnd : (recordPids p.productsFile).Nodup) :
    Inv otherPids
      { seen := seenInit otherPids p.productsFile,
        productsFile := p.productsFile,
        productsFileExists := p.productsFileExists,
        reviewsFile := p.reviewsFile,
        reviewsFileExists := p.reviewsFileExists,
        brandLog := p.brandLog } [] := by
  refine ⟨seenInit_nodup _ _, by simpa using hnd, ?_⟩
  intro x
  have h1 := seenInit_mem otherPids p.productsFile x
  simpa using h1

/-- Top-level specification of one Ulta run: the dedup invariant holds of
the final state, the products file grows by exactly the flushed batches,
at the end every brand is logged unless the cap was reached, and when
the products file already existed no flush writes a header row. -/
theorem main_spec (site : Site) (cap : Nat) (otherPids : List String)
    (p : Persisted) (hnd : (recordPids p.productsFile).Nodup) :
    Inv otherPids (main site cap otherPids p).1 [] ∧
    (main site cap otherPids p).1.productsFile =
      p.productsFile ++ (flushBatches (main site cap otherPids p).2).flatten ∧
    ((∀ b ∈ site.brandUrls,
        brandSlug b ∈ (main site cap otherPids p).1.brandLog) ∨
      cap ≤ (main site cap otherPids p).1.seen.length) ∧
    (p.productsFileExists = true →
      ∀ h ∈ flushHeaders (main site cap otherPids p).2, h = false) := by
  have h := uBrandLoop_spec site cap otherPids site.brandUrls _
    (Inv_init otherPids p hnd)
  exact ⟨h.1, h.2.1, h.2.2.2.2.2.1, fun hex => (h.2.2.2.2.2.2 hex).2⟩

/-- Any sequence of Ulta runs preserves duplicate-freedom of the
persisted product ids. -/
theorem multiRun_nodup (otherPids : List String) :
    ∀ (runs : List (Site × Nat)) (p : Persisted),
      (recordPids p.productsFile).Nodup →
      (recordPids (multiRun otherPids runs p).productsFile).Nodup := by
  intro runs
  induction runs with
  | nil => intro p h; exact h
  | cons sc rest ih =>
    intro p h
    cases sc with
    | mk site cap =>
      have hm := (main_spec site cap otherPids p h).1
      have h2 : (recordPids (main site cap otherPids p).1.productsFile).Nodup := by
        simpa using hm.2.1
      exact ih _ h2

end Ulta

/-- Claim C1, counterexample: the Sephora variant reads no persisted
state at all — every run starts with an empty seen set, so re-running
against the unchanged demo site c1SiteS collects the entity P123 and its
record again instead of zero new records. -/
theorem c1_counterexample_sephora_rerun_recollects :
    Sephora.main c1SiteS 10 =
      Sephora.sBrandLoop c1SiteS 10 c1SiteS.brandUrls ⟨[], [], []⟩ ∧
    (Sephora.main c1SiteS 10).products.map Sephora.SProductRecord.product_id =
      [some "123"] ∧
    (Sephora.main c1SiteS 10).seen = [some "123"] :=
  ⟨rfl, by decide, by decide⟩

/-- Claim C1 (amended to the Ulta variant): an Ulta run preserves
duplicate-freedom of the persisted product ids under any sequence of
runs, and re-running against an unchanged site from the persisted state
of a completed run appends zero new product records and emits no events
at all.  The Sephora variant does not satisfy the claim (see the
counterexample): it never reads persisted state. -/
theorem c1_ulta_global_dedup_and_rerun_zero (site : Ulta.Site) (cap : Nat)
    (otherPids : List String) (p : Ulta.Persisted)
    (hnd : (Ulta.recordPids p.productsFile).Nodup) :
    (∀ runs : List (Ulta.Site × Nat),
      (Ulta.recordPids
        (Ulta.multiRun otherPids runs p).productsFile).Nodup) ∧
    (Ulta.main site cap otherPids
        (Ulta.persistedOf (Ulta.main site cap otherPids p).1)).1.productsFile =
      (Ulta.main site cap otherPids p).1.productsFile ∧
    (Ulta.main site cap otherPids
        (Ulta.persistedOf (Ulta.main site cap otherPids p).1)).2 = [] := by
  obtain ⟨hInv, hfile, hcov, hhdr⟩ := Ulta.main_spec site cap otherPids p hnd
  have hm : ∀ x, x ∈ (Ulta.main site cap otherPids p).1.seen ↔
      x ∈ Ulta.seenInit otherPids
        (Ulta.main site cap otherPids p).1.productsFile := by
    intro x
    rw [Ulta.seenInit_mem]
    have h3 := hInv.2.2 x
    simpa using h3
  have hlen : (Ulta.main site cap otherPids p).1.seen.length =
      (Ulta.seenInit otherPids
        (Ulta.main site cap otherPids p).1.productsFile).length :=
    Ulta.length_eq_of_nodup_mem_iff hInv.1 (Ulta.seenInit_nodup _ _) hm
  have hall : ∀ b ∈ site.brandUrls,
      Ulta.brandSlug b ∈ (Ulta.main site cap otherPids p).1.brandLog ∨
      cap ≤ (Ulta.seenInit otherPids
        (Ulta.main site cap otherPids p).1.productsFile).length := by
    intro b hb
    rcases hcov with hcov | hcov
    · exact Or.inl (hcov b hb)
    · exact Or.inr (hlen ▸ hcov)
  have skip := Ulta.uBrandLoop_skip_all site cap site.brandUrls
    { seen := Ulta.seenInit otherPids
        (Ulta.main site cap otherPids p).1.productsFile,
      productsFile := (Ulta.main site cap otherPids p).1.productsFile,
      productsFileExists := (Ulta.main site cap otherPids p).1.productsFileExists,
      reviewsFile := (Ulta.main site cap otherPids p).1.reviewsFile,
      reviewsFileExists := (Ulta.main site cap otherPids p).1.reviewsFileExists,
      brandLog := (Ulta.main site cap otherPids p).1.brandLog } hall
  refine ⟨fun runs => Ulta.multiRun_nodup otherPids runs p hnd, ?_, ?_⟩
  · show (Ulta.uBrandLoop site cap site.brandUrls
      { seen := Ulta.seenInit otherPids
          (Ulta.main site cap otherPids p).1.productsFile,
        productsFile := (Ulta.main site cap otherPids p).1.productsFile,
        productsFileExists :=
          (Ulta.main site cap otherPids p).1.productsFileExists,
        reviewsFile := (Ulta.main site cap otherPids p).1.reviewsFile,
        reviewsFileExists :=
          (Ulta.main site cap otherPids p).1.reviewsFileExists,
        brandLog := (Ulta.main site cap otherPids p).1.brandLog }).1.productsFile
      = (Ulta.main site cap otherPids p).1.productsFile
    rw [skip]
  · show (Ulta.uBrandLoop site cap site.brandUrls
      { seen := Ulta.seenInit otherPids
          (Ulta.main site cap otherPids p).1.productsFile,
        productsFile := (Ulta.main site cap otherPids p).1.productsFile,
        productsFileExists :=
          (Ulta.main site cap otherPids p).1.productsFileExists,
        reviewsFile := (Ulta.main site cap otherPids p).1.reviewsFile,
        reviewsFileExists :=
          (Ulta.main site cap otherPids p).1.reviewsFileExists,
        brandLog := (Ulta.main site cap otherPids p).1.brandLog }).2 = []
    rw [skip]

/-- Claim C1 witness: on the demo Ulta site with an empty persisted
state, the dedup and rerun-zero conclusions hold. -/
theorem c1_ulta_global_dedup_and_rerun_zero_witness :
    (Ulta.recordPids
      (⟨[], false, [], false, []⟩ : Ulta.Persisted).productsFile).Nodup ∧
    ((∀ runs : List (Ulta.Site × Nat),
      (Ulta.recordPids
        (Ulta.multiRun [] runs ⟨[], false, [], false, []⟩).productsFile).Nodup) ∧
    (Ulta.main c6SiteU 10 []
        (Ulta.persistedOf
          (Ulta.main c6SiteU 10 [] ⟨[], false, [], false, []⟩).1)).1.productsFile =
      (Ulta.main c6SiteU 10 [] ⟨[], false, [], false, []⟩).1.productsFile ∧
    (Ulta.main c6SiteU 10 []
        (Ulta.persistedOf
          (Ulta.main c6SiteU 10 [] ⟨[], false, [], false, []⟩).1)).2 = []) :=
  ⟨by simp [Ulta.recordPids],
    c1_ulta_global_dedup_and_rerun_zero c6SiteU 10 [] ⟨[], false, [], false, []⟩
      (by simp [Ulta.recordPids])⟩

/-- Claim C6, counterexample: the Ulta scraper flushes whole per-brand
batches, not per-entity records.  On the demo site c6SiteU both entity
pages are visited before any flush happens, and the one flush carries
both records at once, so a crash after the two visits but before the
flush loses both entities, not just the in-flight one. -/
theorem c6_counterexample_brand_batch_flush :
    Ulta.hasMultiRecordFlush
      (Ulta.main c6SiteU 10 [] ⟨[], false, [], false, []⟩).2 = true ∧
    (Ulta.main c6SiteU 10 [] ⟨[], false, [], false, []⟩).2.take 2 =
      [Ulta.Event.visitEntity "https://www.ulta.com/p/x-pimprod1",
       Ulta.Event.visitEntity "https://www.ulta.com/p/y-pimprod2"] ∧
    Ulta.flushBatches
      ((Ulta.main c6SiteU 10 [] ⟨[], false, [], false, []⟩).2.take 2) = [] :=
  ⟨by decide, rfl, rfl⟩

/-- Claim C6 (amended): Ulta flushes per brand, not per entity.  What
does hold: the products file only ever grows, by exactly the flushed
batches in order; a crash at any cut point of the event trace keeps
every previously flushed batch as an unchanged initial segment of what a
completed run would persist; and when the products file already existed
no flush writes a header row. -/
theorem c6_append_only_batch_flush_header_once (site : Ulta.Site) (cap : Nat)
    (otherPids : List String) (p : Ulta.Persisted)
    (hnd : (Ulta.recordPids p.productsFile).Nodup) :
    (Ulta.main site cap otherPids p).1.productsFile =
      p.productsFile ++
        (Ulta.flushBatches (Ulta.main site cap otherPids p).2).flatten ∧
    (∀ n : Nat, ∃ rest,
      (Ulta.main site cap otherPids p).1.productsFile =
        p.productsFile ++
          (Ulta.flushBatches
            ((Ulta.main site cap otherPids p).2.take n)).flatten ++ rest) ∧
    (p.productsFileExists = true →
      ∀ h ∈ Ulta.flushHeaders (Ulta.main site cap otherPids p).2, h = false) := by
  obtain ⟨_, hfile, _, hhdr⟩ := Ulta.main_spec site cap otherPids p hnd
  refine ⟨hfile, ?_, hhdr⟩
  intro n
  obtain ⟨rest0, hr⟩ :=
    Ulta.flushBatches_take (Ulta.main site cap otherPids p).2 n
  refine ⟨rest0.flatten, ?_⟩
  rw [hfile, hr, List.flatten_append, List.append_assoc]

/-- Claim C6 witness: on the demo Ulta site starting from an existing
but empty products file, the append-only decomposition, the cut-point
persistence and the no-header property hold. -/
theorem c6_append_only_batch_flush_header_once_witness :
    (Ulta.recordPids
      (⟨[], true, [], false, []⟩ : Ulta.Persisted).productsFile).Nodup ∧
    ((Ulta.main c6SiteU 10 [] ⟨[], true, [], false, []⟩).1.productsFile =
      [] ++
        (Ulta.flushBatches
          (Ulta.main c6SiteU 10 [] ⟨[], true, [], false, []⟩).2).flatten ∧
    (∀ n : Nat, ∃ rest,
      (Ulta.main c6SiteU 10 [] ⟨[], true, [], false, []⟩).1.productsFile =
        [] ++
          (Ulta.flushBatches
            ((Ulta.main c6SiteU 10 [] ⟨[], true, [], false, []⟩).2.take n)).flatten
          ++ rest) ∧
    (true = true →
      ∀ h ∈ Ulta.flushHeaders
        (Ulta.main c6SiteU 10 [] ⟨[], true, [], false, []⟩).2, h = false)) :=
  ⟨by simp [Ulta.recordPids],
    c6_append_only_batch_flush_header_once c6SiteU 10 []
      ⟨[], true, [], false, []⟩ (by simp [Ulta.recordPids])⟩
